import Mathlib

/-!
# Verification of the x402-sdk-for-sui payment protocol core

A shallow embedding of the protocol orchestration engine of the
`x402-sdk-for-sui` repository: the payment verifier (`verifyPayment`), the
client payment builder (`createAndSignPayment`, `createPaymentHeader`), the
Express payment middleware (`paymentMiddleware` and its post-response
settlement step), the payment-aware fetch wrapper (`wrapFetchWithPayment`),
and the transport codec (base64 of UTF-8 JSON) used for the
`x-payment` / `x-payment-required` / `x-payment-response` headers.

External collaborators (the Sui ledger client, keypair signing, the HTTP
stack) are modelled as oracles, exactly as the spec scopes them out; the
JavaScript builtins `JSON.stringify` / `JSON.parse` / base64 / UTF-8 are
modelled concretely so the codec round-trip can be settled.
-/

/-! ## Characters and digits -/

def quoteC : Char := Char.ofNat 34

def bslashC : Char := Char.ofNat 92

def lbraceC : Char := Char.ofNat 123

def rbraceC : Char := Char.ofNat 125

def lbrackC : Char := Char.ofNat 91

def rbrackC : Char := Char.ofNat 93

def commaC : Char := Char.ofNat 44

def colonC : Char := Char.ofNat 58

def minusC : Char := Char.ofNat 45

def plusC : Char := Char.ofNat 43

def slashC : Char := Char.ofNat 47

def padC : Char := Char.ofNat 61

def digitChar (d : Nat) : Char := Char.ofNat (48 + d)

def isDigitC (c : Char) : Bool := 48 ≤ c.toNat && c.toNat ≤ 57

/-- Lowercase hex digit, as `JSON.stringify` emits in `\u00XX` escapes. -/
def hexDigitChar (d : Nat) : Char :=
  if d < 10 then digitChar d else Char.ofNat (97 + d - 10)

/-- Value of a hex digit character (accepts both cases, as `JSON.parse` does). -/
def hexVal (c : Char) : Option Nat :=
  if 48 ≤ c.toNat ∧ c.toNat ≤ 57 then some (c.toNat - 48)
  else if 97 ≤ c.toNat ∧ c.toNat ≤ 102 then some (c.toNat - 87)
  else if 65 ≤ c.toNat ∧ c.toNat ≤ 70 then some (c.toNat - 55)
  else none

/-- Fuelled decimal-digit printer (fuel keeps the recursion structural,
so closed terms evaluate definitionally). -/
def natDigitsF : Nat → Nat → List Char
  | 0, _ => []
  | f + 1, n => if n < 10 then [digitChar n] else natDigitsF f (n / 10) ++ [digitChar (n % 10)]

/-- Decimal digits of `n`, most significant first; `natDigits 0 = ['0']`. -/
def natDigits (n : Nat) : List Char := natDigitsF (n + 1) n

/-- Decimal digits of an integer, with a leading minus sign when negative:
the output of JavaScript number/bigint-to-string conversion on integers. -/
def intDigits (n : Int) : List Char :=
  if n < 0 then minusC :: natDigits (-n).toNat else natDigits n.toNat

def digitsToNat (l : List Char) : Nat :=
  l.foldl (fun a c => a * 10 + (c.toNat - 48)) 0

theorem natDigitsF_fuel (n : Nat) : ∀ f g, n < f → n < g → natDigitsF f n = natDigitsF g n := by
  induction n using Nat.strong_induction_on with
  | _ n ih =>
    intro f g hf hg
    obtain ⟨f', rfl⟩ : ∃ k, f = k + 1 := ⟨f - 1, by omega⟩
    obtain ⟨g', rfl⟩ : ∃ k, g = k + 1 := ⟨g - 1, by omega⟩
    by_cases h : n < 10
    · simp [natDigitsF, h]
    · have hd : n / 10 < n := Nat.div_lt_self (by omega) (by omega)
      simp only [natDigitsF, if_neg h]
      rw [ih (n / 10) hd f' g' (by omega) (by omega)]

theorem natDigitsF_eq_natDigits (f n : Nat) (h : n < f) : natDigitsF f n = natDigits n :=
  natDigitsF_fuel n f (n + 1) h (Nat.lt_succ_self n)

theorem natDigits_eq (n : Nat) :
    natDigits n = if n < 10 then [digitChar n] else natDigits (n / 10) ++ [digitChar (n % 10)] := by
  have key : natDigitsF (n + 1) n
      = if n < 10 then [digitChar n] else natDigitsF n (n / 10) ++ [digitChar (n % 10)] := by
    simp only [natDigitsF]
  rw [show natDigits n = natDigitsF (n + 1) n from rfl, key]
  by_cases h : n < 10
  · simp [h]
  · rw [if_neg h, if_neg h, natDigitsF_eq_natDigits n (n / 10) (by omega)]

theorem digitChar_toNat (d : Nat) (h : d < 10) : (digitChar d).toNat = 48 + d := by
  interval_cases d <;> decide

theorem isDigitC_digitChar (d : Nat) (h : d < 10) : isDigitC (digitChar d) = true := by
  interval_cases d <;> decide

theorem natDigits_ne_nil (n : Nat) : natDigits n ≠ [] := by
  rw [natDigits_eq]
  split <;> simp

theorem natDigits_head_digit (n : Nat) :
    ∃ c cs, natDigits n = c :: cs ∧ isDigitC c = true := by
  induction n using Nat.strong_induction_on with
  | _ n ih =>
    rw [natDigits_eq]
    by_cases h : n < 10
    · exact ⟨digitChar n, [], by simp [h], isDigitC_digitChar n h⟩
    · obtain ⟨c, cs, hcons, hdig⟩ := ih (n / 10) (Nat.div_lt_self (by omega) (by omega))
      exact ⟨c, cs ++ [digitChar (n % 10)], by simp [h, hcons], hdig⟩

theorem natDigits_all_digits (n : Nat) :
    ∀ c ∈ natDigits n, isDigitC c = true := by
  induction n using Nat.strong_induction_on with
  | _ n ih =>
    rw [natDigits_eq]
    by_cases h : n < 10
    · simpa [h] using isDigitC_digitChar n h
    · intro c hc
      simp only [if_neg h, List.mem_append, List.mem_singleton] at hc
      rcases hc with hc | hc
      · exact ih (n / 10) (Nat.div_lt_self (by omega) (by omega)) c hc
      · subst hc; exact isDigitC_digitChar (n % 10) (Nat.mod_lt n (by omega))

theorem digitsToNat_append_one (l : List Char) (c : Char) :
    digitsToNat (l ++ [c]) = digitsToNat l * 10 + (c.toNat - 48) := by
  simp [digitsToNat]

theorem digitsToNat_natDigits (n : Nat) : digitsToNat (natDigits n) = n := by
  induction n using Nat.strong_induction_on with
  | _ n ih =>
    rw [natDigits_eq]
    by_cases h : n < 10
    · simp [h, digitsToNat, digitChar_toNat n h]
    · rw [if_neg h, digitsToNat_append_one,
        ih (n / 10) (Nat.div_lt_self (by omega) (by omega)),
        digitChar_toNat (n % 10) (Nat.mod_lt n (by omega))]
      omega

/-! ## Char facts -/

theorem toNat_ofNat_small (n : Nat) (h : n < 55296) : (Char.ofNat n).toNat = n := by
  unfold Char.ofNat
  rw [dif_pos (Or.inl h)]
  rfl

theorem char_toNat_lt (c : Char) : c.toNat < 1114112 := by
  rcases c.valid with h | h
  · have : c.toNat < 55296 := h
    omega
  · exact h.2

theorem char_valid_cases (c : Char) : c.toNat < 55296 ∨ (57343 < c.toNat ∧ c.toNat < 1114112) :=
  c.valid

theorem char_eq_of_toNat (c d : Char) (h : c.toNat = d.toNat) : c = d := by
  have hc := Char.ofNat_toNat c
  rw [← hc, h, Char.ofNat_toNat]

theorem char_ne_of_toNat (c d : Char) (h : c.toNat ≠ d.toNat) : c ≠ d :=
  fun he => h (he ▸ rfl)

/-! ## The JavaScript `BigInt(string)` conversion

`verifyPayment` and the fetch wrapper turn amount strings into
arbitrary-precision integers with `BigInt(...)`, which trims whitespace,
maps the empty string to `0`, accepts `0x`/`0o`/`0b` radix prefixes and an
optional sign on decimal literals, and throws on anything else.  The throw
is modelled as `none`. -/

def isWSC (c : Char) : Bool :=
  c.toNat = 9 || c.toNat = 10 || c.toNat = 11 || c.toNat = 12 || c.toNat = 13 || c.toNat = 32

def trimWS (l : List Char) : List Char :=
  ((l.dropWhile isWSC).reverse.dropWhile isWSC).reverse

def decimalVal (c : Char) : Option Nat :=
  if isDigitC c then some (c.toNat - 48) else none

def octVal (c : Char) : Option Nat :=
  if 48 ≤ c.toNat ∧ c.toNat ≤ 55 then some (c.toNat - 48) else none

def binVal (c : Char) : Option Nat :=
  if c.toNat = 48 ∨ c.toNat = 49 then some (c.toNat - 48) else none

def parseDigitsBase (valf : Char → Option Nat) (base : Nat) (l : List Char) : Option Nat :=
  match l.mapM valf with
  | none => none
  | some ds => if ds = [] then none else some (ds.foldl (fun a d => a * base + d) 0)

def parseBigIntCore (t : List Char) : Option Int :=
  match t with
  | [] => some 0
  | c1 :: rest =>
    if c1 = plusC then (parseDigitsBase decimalVal 10 rest).map Int.ofNat
    else if c1 = minusC then (parseDigitsBase decimalVal 10 rest).map (fun n => -(n : Int))
    else if c1 = '0' then
      match rest with
      | [] => some 0
      | c2 :: rest2 =>
        if c2 = 'x' ∨ c2 = 'X' then (parseDigitsBase hexVal 16 rest2).map Int.ofNat
        else if c2 = 'o' ∨ c2 = 'O' then (parseDigitsBase octVal 8 rest2).map Int.ofNat
        else if c2 = 'b' ∨ c2 = 'B' then (parseDigitsBase binVal 2 rest2).map Int.ofNat
        else (parseDigitsBase decimalVal 10 t).map Int.ofNat
    else (parseDigitsBase decimalVal 10 t).map Int.ofNat

/-- Model of `BigInt(s)`: `some` the parsed integer, `none` when it throws. -/
def parseBigInt (s : String) : Option Int := parseBigIntCore (trimWS s.data)

/-! ## Base64 (the `Buffer`/`atob` alphabet with `=` padding) -/

def b64EncChar (n : Nat) : Char :=
  if n < 26 then Char.ofNat (65 + n)
  else if n < 52 then Char.ofNat (97 + (n - 26))
  else if n < 62 then Char.ofNat (48 + (n - 52))
  else if n = 62 then plusC
  else slashC

def b64DecChar (c : Char) : Option Nat :=
  if 65 ≤ c.toNat ∧ c.toNat ≤ 90 then some (c.toNat - 65)
  else if 97 ≤ c.toNat ∧ c.toNat ≤ 122 then some (c.toNat - 97 + 26)
  else if 48 ≤ c.toNat ∧ c.toNat ≤ 57 then some (c.toNat - 48 + 52)
  else if c = plusC then some 62
  else if c = slashC then some 63
  else none

def b64Encode : List Nat → List Char
  | [] => []
  | [b1] => [b64EncChar (b1 / 4), b64EncChar (b1 % 4 * 16), padC, padC]
  | [b1, b2] => [b64EncChar (b1 / 4), b64EncChar (b1 % 4 * 16 + b2 / 16), b64EncChar (b2 % 16 * 4), padC]
  | b1 :: b2 :: b3 :: rest =>
    b64EncChar (b1 / 4) :: b64EncChar (b1 % 4 * 16 + b2 / 16) :: b64EncChar (b2 % 16 * 4 + b3 / 64)
      :: b64EncChar (b3 % 64) :: b64Encode rest

def b64Decode : List Char → Option (List Nat)
  | [] => some []
  | c1 :: c2 :: c3 :: c4 :: rest =>
    if rest = [] ∧ c3 = padC ∧ c4 = padC then
      (b64DecChar c1).bind fun s1 => (b64DecChar c2).map fun s2 => [s1 * 4 + s2 / 16]
    else if rest = [] ∧ c4 = padC then
      (b64DecChar c1).bind fun s1 => (b64DecChar c2).bind fun s2 =>
        (b64DecChar c3).map fun s3 => [s1 * 4 + s2 / 16, s2 % 16 * 16 + s3 / 4]
    else
      (b64DecChar c1).bind fun s1 => (b64DecChar c2).bind fun s2 =>
        (b64DecChar c3).bind fun s3 => (b64DecChar c4).bind fun s4 =>
          (b64Decode rest).map fun bs =>
            (s1 * 4 + s2 / 16) :: (s2 % 16 * 16 + s3 / 4) :: (s3 % 4 * 64 + s4) :: bs
  | _ => none

theorem b64DecEnc_fin : ∀ i : Fin 64, b64DecChar (b64EncChar i.val) = some i.val := by decide

theorem b64DecEnc (n : Nat) (h : n < 64) : b64DecChar (b64EncChar n) = some n :=
  b64DecEnc_fin ⟨n, h⟩

theorem b64EncChar_ne_pad (n : Nat) (h : n < 64) : b64EncChar n ≠ padC := by
  intro he
  have ht : (b64EncChar n).toNat = 61 := by rw [he]; decide
  unfold b64EncChar at ht
  split_ifs at ht
  · rw [toNat_ofNat_small (65 + n) (by omega)] at ht; omega
  · rw [toNat_ofNat_small (97 + (n - 26)) (by omega)] at ht; omega
  · rw [toNat_ofNat_small (48 + (n - 52)) (by omega)] at ht; omega
  · exact absurd ht (by decide)
  · exact absurd ht (by decide)

theorem b64_roundtrip : ∀ l : List Nat, (∀ b ∈ l, b < 256) → b64Decode (b64Encode l) = some l := by
  intro l
  induction l using b64Encode.induct with
  | case1 => intro _; rfl
  | case2 b1 =>
    intro hb
    have h1 : b1 < 256 := hb b1 (by simp)
    simp [b64Encode, b64Decode, b64DecEnc (b1 / 4) (by omega), b64DecEnc (b1 % 4 * 16) (by omega)]
    omega
  | case3 b1 b2 =>
    intro hb
    have h1 : b1 < 256 := hb b1 (by simp)
    have h2 : b2 < 256 := hb b2 (by simp)
    have hne : b64EncChar (b2 % 16 * 4) ≠ padC := b64EncChar_ne_pad _ (by omega)
    simp [b64Encode, b64Decode, hne, b64DecEnc (b1 / 4) (by omega),
      b64DecEnc (b1 % 4 * 16 + b2 / 16) (by omega), b64DecEnc (b2 % 16 * 4) (by omega)]
    omega
  | case4 b1 b2 b3 rest ih =>
    intro hb
    have h1 : b1 < 256 := hb b1 (by simp)
    have h2 : b2 < 256 := hb b2 (by simp)
    have h3 : b3 < 256 := hb b3 (by simp)
    have hne : b64EncChar (b3 % 64) ≠ padC := b64EncChar_ne_pad _ (by omega)
    simp [b64Encode, b64Decode, hne, b64DecEnc (b1 / 4) (by omega),
      b64DecEnc (b1 % 4 * 16 + b2 / 16) (by omega),
      b64DecEnc (b2 % 16 * 4 + b3 / 64) (by omega), b64DecEnc (b3 % 64) (by omega),
      ih (fun b hbm => hb b (by simp [hbm]))]
    omega

/-! ## UTF-8 (`Buffer.from(str)` / `buf.toString("utf-8")`) -/

def utf8EncodeChar (c : Char) : List Nat :=
  if c.toNat < 128 then [c.toNat]
  else if c.toNat < 2048 then [192 + c.toNat / 64, 128 + c.toNat % 64]
  else if c.toNat < 65536 then [224 + c.toNat / 4096, 128 + c.toNat / 64 % 64, 128 + c.toNat % 64]
  else [240 + c.toNat / 262144, 128 + c.toNat / 4096 % 64, 128 + c.toNat / 64 % 64, 128 + c.toNat % 64]

def utf8Encode (s : List Char) : List Nat := s.flatMap utf8EncodeChar

/-- Whether a byte is a UTF-8 continuation byte. -/
def contB (b : Nat) : Bool := 128 ≤ b && b < 192

/-- Decode one scalar value from the front of a byte list. -/
def utf8Step : List Nat → Option (Nat × List Nat)
  | [] => none
  | b :: rest =>
    if b < 128 then some (b, rest)
    else if b < 192 then none
    else if b < 224 then
      match rest with
      | b2 :: r2 => if contB b2 then some ((b - 192) * 64 + (b2 - 128), r2) else none
      | [] => none
    else if b < 240 then
      match rest with
      | b2 :: b3 :: r2 =>
        if contB b2 && contB b3 then
          some ((b - 224) * 4096 + (b2 - 128) * 64 + (b3 - 128), r2)
        else none
      | _ => none
    else
      match rest with
      | b2 :: b3 :: b4 :: r2 =>
        if contB b2 && contB b3 && contB b4 then
          some ((b - 240) * 262144 + (b2 - 128) * 4096 + (b3 - 128) * 64 + (b4 - 128), r2)
        else none
      | _ => none

def utf8DecodeF : Nat → List Nat → Option (List Char)
  | 0, _ => none
  | _ + 1, [] => some []
  | f + 1, b :: rest =>
    match utf8Step (b :: rest) with
    | none => none
    | some (n, r) => (utf8DecodeF f r).map fun cs => Char.ofNat n :: cs

def utf8Decode (l : List Nat) : Option (List Char) := utf8DecodeF (l.length + 1) l

theorem utf8EncodeChar_bytes_lt (c : Char) : ∀ b ∈ utf8EncodeChar c, b < 256 := by
  have h := char_toNat_lt c
  unfold utf8EncodeChar
  split_ifs with h1 h2 h3 <;> intro b hb <;> simp at hb <;> omega

theorem utf8Encode_bytes_lt (s : List Char) : ∀ b ∈ utf8Encode s, b < 256 := by
  intro b hb
  simp only [utf8Encode, List.mem_flatMap] at hb
  obtain ⟨c, _, hbc⟩ := hb
  exact utf8EncodeChar_bytes_lt c b hbc

theorem utf8EncodeChar_length_pos (c : Char) : 0 < (utf8EncodeChar c).length := by
  unfold utf8EncodeChar
  split_ifs <;> simp

theorem utf8Step_encodeChar (c : Char) (rest : List Nat) :
    utf8Step (utf8EncodeChar c ++ rest) = some (c.toNat, rest) := by
  have hval := char_toNat_lt c
  unfold utf8EncodeChar
  split_ifs with h1 h2 h3
  · simp only [List.cons_append, List.nil_append, utf8Step, if_pos h1]
  · simp only [List.cons_append, List.nil_append, utf8Step]
    rw [if_neg (by omega), if_neg (by omega), if_pos (by omega),
      if_pos (by simp [contB]; omega)]
    have : (192 + c.toNat / 64 - 192) * 64 + (128 + c.toNat % 64 - 128) = c.toNat := by omega
    rw [this]
  · simp only [List.cons_append, List.nil_append, utf8Step]
    rw [if_neg (by omega), if_neg (by omega), if_neg (by omega), if_pos (by omega),
      if_pos (by simp [contB]; omega)]
    have : (224 + c.toNat / 4096 - 224) * 4096 + (128 + c.toNat / 64 % 64 - 128) * 64 +
        (128 + c.toNat % 64 - 128) = c.toNat := by omega
    rw [this]
  · simp only [List.cons_append, List.nil_append, utf8Step]
    rw [if_neg (by omega), if_neg (by omega), if_neg (by omega), if_neg (by omega),
      if_pos (by simp [contB]; omega)]
    have : (240 + c.toNat / 262144 - 240) * 262144 + (128 + c.toNat / 4096 % 64 - 128) * 4096 +
        (128 + c.toNat / 64 % 64 - 128) * 64 + (128 + c.toNat % 64 - 128) = c.toNat := by omega
    rw [this]

theorem utf8DecodeF_encode (s : List Char) :
    ∀ f, (utf8Encode s).length < f → utf8DecodeF f (utf8Encode s) = some s := by
  induction s with
  | nil =>
    intro f hf
    obtain ⟨g, rfl⟩ : ∃ g, f = g + 1 := ⟨f - 1, by omega⟩
    rfl
  | cons c cs ih =>
    intro f hf
    have hflat : utf8Encode (c :: cs) = utf8EncodeChar c ++ utf8Encode cs := by
      simp [utf8Encode]
    rw [hflat] at hf ⊢
    obtain ⟨g, rfl⟩ : ∃ g, f = g + 1 := ⟨f - 1, by omega⟩
    have hlenc := utf8EncodeChar_length_pos c
    have hlen : (utf8Encode cs).length < g := by
      rw [List.length_append] at hf
      omega
    obtain ⟨b0, bs, hb0⟩ : ∃ b0 bs, utf8EncodeChar c ++ utf8Encode cs = b0 :: bs := by
      cases he : utf8EncodeChar c with
      | nil => rw [he] at hlenc; simp at hlenc
      | cons x xs => exact ⟨x, xs ++ utf8Encode cs, by simp [he]⟩
    rw [hb0]
    have hstep : utf8Step (b0 :: bs) = some (c.toNat, utf8Encode cs) := by
      rw [← hb0]; exact utf8Step_encodeChar c (utf8Encode cs)
    simp only [utf8DecodeF, hstep, ih g hlen, Option.map_some', Char.ofNat_toNat]

theorem utf8_roundtrip (s : List Char) : utf8Decode (utf8Encode s) = some s :=
  utf8DecodeF_encode s ((utf8Encode s).length + 1) (Nat.lt_succ_self _)

/-! ## JSON (`JSON.stringify` / `JSON.parse`)

JavaScript values that cross the wire are JSON trees.  `Json.num` is kept
integral (the only numeric field in the protocol, the settlement
timestamp, is an integer).  Arrays and objects use their own spine types
so that all recursion stays structural. -/

mutual
inductive Json where
  | null : Json
  | bool (b : Bool) : Json
  | num (n : Int) : Json
  | str (s : String) : Json
  | arr (elems : JList) : Json
  | obj (fields : JObj) : Json
inductive JList where
  | nil : JList
  | cons (hd : Json) (tl : JList) : JList
inductive JObj where
  | nil : JObj
  | cons (key : String) (val : Json) (tl : JObj) : JObj
end

/-- `JSON.stringify` string escaping: `"`, `\`, and control characters,
with the conventional short escapes and `\u00XX` otherwise. -/
def escChar (c : Char) : List Char :=
  if c = quoteC then [bslashC, quoteC]
  else if c = bslashC then [bslashC, bslashC]
  else if c.toNat = 8 then [bslashC, 'b']
  else if c.toNat = 9 then [bslashC, 't']
  else if c.toNat = 10 then [bslashC, 'n']
  else if c.toNat = 12 then [bslashC, 'f']
  else if c.toNat = 13 then [bslashC, 'r']
  else if c.toNat < 32 then
    [bslashC, 'u', '0', '0', hexDigitChar (c.toNat / 16), hexDigitChar (c.toNat % 16)]
  else [c]

def escape (s : List Char) : List Char := s.flatMap escChar

/-- A JSON string literal: quote, escaped content, quote. -/
def jstrPrint (s : List Char) : List Char := quoteC :: (escape s ++ [quoteC])

def nullLit : List Char := ['n', 'u', 'l', 'l']

def trueLit : List Char := ['t', 'r', 'u', 'e']

def falseLit : List Char := ['f', 'a', 'l', 's', 'e']

mutual
/-- Compact JSON serialisation, exactly as `JSON.stringify` renders the
protocol values (no whitespace, object keys in insertion order). -/
def printJ : Json → List Char
  | .null => nullLit
  | .bool true => trueLit
  | .bool false => falseLit
  | .num n => intDigits n
  | .str s => jstrPrint s.data
  | .arr .nil => [lbrackC, rbrackC]
  | .arr (.cons e es) => lbrackC :: (printJ e ++ printT es)
  | .obj .nil => [lbraceC, rbraceC]
  | .obj (.cons k v fs) => lbraceC :: (jstrPrint k.data ++ (colonC :: (printJ v ++ printO fs)))
/-- Tail of a printed array: `,e1,e2]` separators plus closing bracket. -/
def printT : JList → List Char
  | .nil => [rbrackC]
  | .cons e es => commaC :: (printJ e ++ printT es)
/-- Tail of a printed object after the first member. -/
def printO : JObj → List Char
  | .nil => [rbraceC]
  | .cons k v fs => commaC :: (jstrPrint k.data ++ (colonC :: (printJ v ++ printO fs)))
end

/-- Decode one escape sequence (the part after the backslash). -/
def escStep : List Char → Option (Char × List Char)
  | [] => none
  | e :: r =>
    if e = quoteC then some (quoteC, r)
    else if e = bslashC then some (bslashC, r)
    else if e = slashC then some (slashC, r)
    else if e = 'b' then some (Char.ofNat 8, r)
    else if e = 't' then some (Char.ofNat 9, r)
    else if e = 'n' then some (Char.ofNat 10, r)
    else if e = 'f' then some (Char.ofNat 12, r)
    else if e = 'r' then some (Char.ofNat 13, r)
    else if e = 'u' then
      match r with
      | h1 :: h2 :: h3 :: h4 :: r2 =>
        match hexVal h1, hexVal h2, hexVal h3, hexVal h4 with
        | some v1, some v2, some v3, some v4 =>
          some (Char.ofNat (v1 * 4096 + v2 * 256 + v3 * 16 + v4), r2)
        | _, _, _, _ => none
      | _ => none
    else none

/-- Parse a JSON string body (after the opening quote) up to the closing
quote; returns the unescaped content and the remaining input. -/
def parseJStringF : Nat → List Char → Option (List Char × List Char)
  | 0, _ => none
  | _ + 1, [] => none
  | f + 1, c :: rest =>
    if c = quoteC then some ([], rest)
    else if c = bslashC then
      match escStep rest with
      | none => none
      | some (d, r2) => (parseJStringF f r2).map fun p => (d :: p.1, p.2)
    else (parseJStringF f rest).map fun p => (c :: p.1, p.2)

def parseJString (l : List Char) : Option (List Char × List Char) :=
  parseJStringF (l.length + 1) l

def takeDigits : List Char → (List Char × List Char)
  | [] => ([], [])
  | c :: rest =>
    if isDigitC c then
      ((c :: (takeDigits rest).1), (takeDigits rest).2)
    else ([], c :: rest)

def parseNatNum (l : List Char) : Option (Nat × List Char) :=
  if (takeDigits l).1 = [] then none else some (digitsToNat (takeDigits l).1, (takeDigits l).2)

def headIs (l : List Char) (c : Char) : Bool :=
  match l with
  | [] => false
  | x :: _ => x == c

def expectLit : List Char → List Char → Option (List Char)
  | [], l => some l
  | _ :: _, [] => none
  | p :: ps, c :: l => if c = p then expectLit ps l else none

/-- Parser modes: a full value, the tail of an array, the tail of an object. -/
inductive PMode where
  | top : PMode
  | arrTail : PMode
  | objTail : PMode

inductive PRes where
  | v (j : Json) : PRes
  | vs (l : JList) : PRes
  | fields (o : JObj) : PRes

/-- One step of the JSON value parser, parameterised by the recursive
call (so the fuelled driver below keeps purely structural recursion). -/
def topStep (rec : PMode → List Char → Option (PRes × List Char)) :
    List Char → Option (PRes × List Char)
  | [] => none
  | c :: rest =>
    if c = 'n' then (expectLit ['u', 'l', 'l'] rest).map fun r => (.v .null, r)
    else if c = 't' then (expectLit ['r', 'u', 'e'] rest).map fun r => (.v (.bool true), r)
    else if c = 'f' then (expectLit ['a', 'l', 's', 'e'] rest).map fun r => (.v (.bool false), r)
    else if c = quoteC then (parseJString rest).map fun p => (.v (.str (String.mk p.1)), p.2)
    else if c = lbrackC then
      if headIs rest rbrackC then some (.v (.arr .nil), rest.tail)
      else
        match rec .top rest with
        | some (.v e, r2) =>
          (match rec .arrTail r2 with
           | some (.vs es, r3) => some (.v (.arr (.cons e es)), r3)
           | _ => none)
        | _ => none
    else if c = lbraceC then
      if headIs rest rbraceC then some (.v (.obj .nil), rest.tail)
      else if headIs rest quoteC then
        match parseJString rest.tail with
        | none => none
        | some (k, r2) =>
          if headIs r2 colonC then
            match rec .top r2.tail with
            | some (.v v, r3) =>
              (match rec .objTail r3 with
               | some (.fields fs, r4) => some (.v (.obj (.cons (String.mk k) v fs)), r4)
               | _ => none)
            | _ => none
          else none
      else none
    else if c = minusC then
      match parseNatNum rest with
      | none => none
      | some (m, r2) => some (.v (.num (-(m : Int))), r2)
    else if isDigitC c then
      match parseNatNum (c :: rest) with
      | none => none
      | some (m, r2) => some (.v (.num (m : Int)), r2)
    else none

def arrTailStep (rec : PMode → List Char → Option (PRes × List Char)) :
    List Char → Option (PRes × List Char)
  | [] => none
  | c :: rest =>
    if c = rbrackC then some (.vs .nil, rest)
    else if c = commaC then
      match rec .top rest with
      | some (.v e, r2) =>
        (match rec .arrTail r2 with
         | some (.vs es, r3) => some (.vs (.cons e es), r3)
         | _ => none)
      | _ => none
    else none

def objTailStep (rec : PMode → List Char → Option (PRes × List Char)) :
    List Char → Option (PRes × List Char)
  | [] => none
  | c :: rest =>
    if c = rbraceC then some (.fields .nil, rest)
    else if c = commaC then
      if headIs rest quoteC then
        match parseJString rest.tail with
        | none => none
        | some (k, r2) =>
          if headIs r2 colonC then
            match rec .top r2.tail with
            | some (.v v, r3) =>
              (match rec .objTail r3 with
               | some (.fields fs, r4) => some (.fields (.cons (String.mk k) v fs), r4)
               | _ => none)
            | _ => none
          else none
      else none
    else none

def parseStep (rec : PMode → List Char → Option (PRes × List Char)) (m : PMode)
    (input : List Char) : Option (PRes × List Char) :=
  match m with
  | .top => topStep rec input
  | .arrTail => arrTailStep rec input
  | .objTail => objTailStep rec input

def parseM : Nat → PMode → List Char → Option (PRes × List Char)
  | 0, _, _ => none
  | f + 1, m, input => parseStep (parseM f) m input

/-- Model of `JSON.parse` on compact JSON: parse a single value consuming
the whole input. -/
def jsonParse (l : List Char) : Option Json :=
  match parseM (l.length + 1) .top l with
  | some (.v j, []) => some j
  | _ => none

/-! ## JSON round-trip support lemmas -/

theorem string_mk_data (s : String) : String.mk s.data = s := rfl

theorem expectLit_self (ps : List Char) : ∀ rest, expectLit ps (ps ++ rest) = some rest := by
  induction ps with
  | nil => intro rest; rfl
  | cons p ps ih => intro rest; simp [expectLit, ih]

/-- Head of input not a digit (so a preceding number token cannot absorb it). -/
def numSafe (l : List Char) : Bool :=
  match l with
  | [] => true
  | c :: _ => !(isDigitC c)

theorem takeDigits_eq (ds : List Char) (rest : List Char)
    (hds : ∀ c ∈ ds, isDigitC c = true) (hrest : numSafe rest = true) :
    takeDigits (ds ++ rest) = (ds, rest) := by
  induction ds with
  | nil =>
    simp only [List.nil_append]
    cases rest with
    | nil => rfl
    | cons c r =>
      have hc : isDigitC c = false := by
        simp only [numSafe, Bool.not_eq_true'] at hrest
        exact hrest
      simp [takeDigits, hc]
  | cons c cs ih =>
    have hc : isDigitC c = true := hds c (by simp)
    have ih2 := ih (fun x hx => hds x (by simp [hx]))
    simp [takeDigits, hc, ih2]

theorem parseNatNum_natDigits (m : Nat) (rest : List Char) (hrest : numSafe rest = true) :
    parseNatNum (natDigits m ++ rest) = some (m, rest) := by
  rw [parseNatNum, takeDigits_eq (natDigits m) rest (natDigits_all_digits m) hrest]
  simp [natDigits_ne_nil, digitsToNat_natDigits]

theorem hexVal_hexDigitChar (n : Nat) (h : n < 16) : hexVal (hexDigitChar n) = some n := by
  interval_cases n <;> decide

theorem escChar_length_pos (c : Char) : 0 < (escChar c).length := by
  unfold escChar
  split_ifs <;> simp

theorem escStep_quote (t : List Char) : escStep (quoteC :: t) = some (quoteC, t) := by
  simp [escStep]

theorem escStep_bslash (t : List Char) : escStep (bslashC :: t) = some (bslashC, t) := by
  simp [escStep]
  exact fun h => h.symm

theorem escStep_b (t : List Char) : escStep ('b' :: t) = some (Char.ofNat 8, t) := by
  simp [escStep]
  rw [if_neg (by decide), if_neg (by decide), if_neg (by decide)]

theorem escStep_t (t : List Char) : escStep ('t' :: t) = some (Char.ofNat 9, t) := by
  simp [escStep]
  rw [if_neg (by decide), if_neg (by decide), if_neg (by decide)]

theorem escStep_n (t : List Char) : escStep ('n' :: t) = some (Char.ofNat 10, t) := by
  simp [escStep]
  rw [if_neg (by decide), if_neg (by decide), if_neg (by decide)]

theorem escStep_f (t : List Char) : escStep ('f' :: t) = some (Char.ofNat 12, t) := by
  simp [escStep]
  rw [if_neg (by decide), if_neg (by decide), if_neg (by decide)]

theorem escStep_r (t : List Char) : escStep ('r' :: t) = some (Char.ofNat 13, t) := by
  simp [escStep]
  rw [if_neg (by decide), if_neg (by decide), if_neg (by decide)]

theorem escStep_u (hi lo : Nat) (hhi : hi < 16) (hlo : lo < 16) (t : List Char) :
    escStep ('u' :: '0' :: '0' :: hexDigitChar hi :: hexDigitChar lo :: t)
      = some (Char.ofNat (hi * 16 + lo), t) := by
  simp [escStep, show hexVal '0' = some 0 from rfl, hexVal_hexDigitChar hi hhi,
    hexVal_hexDigitChar lo hlo]
  rw [if_neg (by decide), if_neg (by decide), if_neg (by decide)]

theorem parseJStringF_esc (g : Nat) (D : Char) (tail cs rest : List Char)
    (hX : escStep tail = some (D, escape cs ++ (quoteC :: rest)))
    (hrec : parseJStringF g (escape cs ++ (quoteC :: rest)) = some (cs, rest)) :
    parseJStringF (g + 1) (bslashC :: tail) = some (D :: cs, rest) := by
  simp only [parseJStringF]
  simp [hX, hrec]
  decide

theorem parseJStringF_escape (s : List Char) :
    ∀ (f : Nat) (rest : List Char), (escape s).length < f →
      parseJStringF f (escape s ++ (quoteC :: rest)) = some (s, rest) := by
  induction s with
  | nil =>
    intro f rest hf
    obtain ⟨g, rfl⟩ : ∃ g, f = g + 1 := ⟨f - 1, by omega⟩
    simp [escape, parseJStringF]
  | cons c cs ih =>
    intro f rest hf
    have hesc : escape (c :: cs) = escChar c ++ escape cs := by simp [escape]
    rw [hesc] at hf ⊢
    have hlc : 0 < (escChar c).length := escChar_length_pos c
    rw [List.length_append] at hf
    obtain ⟨g, rfl⟩ : ∃ g, f = g + 1 := ⟨f - 1, by omega⟩
    have hg : (escape cs).length < g := by omega
    have hrec := ih g rest hg
    unfold escChar
    split_ifs with h1 h2 h3 h4 h5 h6 h7 h8
    · subst h1
      simp only [List.cons_append, List.nil_append]
      exact parseJStringF_esc g quoteC _ cs rest (escStep_quote _) hrec
    · subst h2
      simp only [List.cons_append, List.nil_append]
      exact parseJStringF_esc g bslashC _ cs rest (escStep_bslash _) hrec
    · have hc : c = Char.ofNat 8 := char_eq_of_toNat c (Char.ofNat 8) (by rw [h3]; decide)
      rw [hc]
      simp only [List.cons_append, List.nil_append]
      exact parseJStringF_esc g (Char.ofNat 8) _ cs rest (escStep_b _) hrec
    · have hc : c = Char.ofNat 9 := char_eq_of_toNat c (Char.ofNat 9) (by rw [h4]; decide)
      rw [hc]
      simp only [List.cons_append, List.nil_append]
      exact parseJStringF_esc g (Char.ofNat 9) _ cs rest (escStep_t _) hrec
    · have hc : c = Char.ofNat 10 := char_eq_of_toNat c (Char.ofNat 10) (by rw [h5]; decide)
      rw [hc]
      simp only [List.cons_append, List.nil_append]
      exact parseJStringF_esc g (Char.ofNat 10) _ cs rest (escStep_n _) hrec
    · have hc : c = Char.ofNat 12 := char_eq_of_toNat c (Char.ofNat 12) (by rw [h6]; decide)
      rw [hc]
      simp only [List.cons_append, List.nil_append]
      exact parseJStringF_esc g (Char.ofNat 12) _ cs rest (escStep_f _) hrec
    · have hc : c = Char.ofNat 13 := char_eq_of_toNat c (Char.ofNat 13) (by rw [h7]; decide)
      rw [hc]
      simp only [List.cons_append, List.nil_append]
      exact parseJStringF_esc g (Char.ofNat 13) _ cs rest (escStep_r _) hrec
    · simp only [List.cons_append, List.nil_append]
      have hstep := escStep_u (c.toNat / 16) (c.toNat % 16) (by omega) (by omega)
        (escape cs ++ (quoteC :: rest))
      have hval : c.toNat / 16 * 16 + c.toNat % 16 = c.toNat := by omega
      rw [hval, Char.ofNat_toNat c] at hstep
      exact parseJStringF_esc g c _ cs rest hstep hrec
    · simp only [List.cons_append, List.nil_append, List.append_eq, parseJStringF]
      rw [if_neg h1, if_neg h2, hrec]
      rfl

theorem parseJString_escape (s rest : List Char) :
    parseJString (escape s ++ (quoteC :: rest)) = some (s, rest) := by
  unfold parseJString
  refine parseJStringF_escape s _ rest ?_
  rw [List.length_append]
  omega

theorem isDigitC_bounds (c : Char) (h : isDigitC c = true) : 48 ≤ c.toNat ∧ c.toNat ≤ 57 := by
  simp only [isDigitC, Bool.and_eq_true, decide_eq_true_eq] at h
  exact h

theorem printJ_shape (j : Json) : ∃ c cs, printJ j = c :: cs ∧ (c == rbrackC) = false := by
  cases j with
  | null => exact ⟨'n', _, rfl, by decide⟩
  | bool b =>
    cases b with
    | true => exact ⟨'t', _, rfl, by decide⟩
    | false => exact ⟨'f', _, rfl, by decide⟩
  | num n =>
    show ∃ c cs, intDigits n = c :: cs ∧ (c == rbrackC) = false
    unfold intDigits
    by_cases hn : n < 0
    · rw [if_pos hn]
      exact ⟨minusC, _, rfl, by decide⟩
    · rw [if_neg hn]
      obtain ⟨c, cs, hc, hdig⟩ := natDigits_head_digit n.toNat
      refine ⟨c, cs, hc, ?_⟩
      have hb := isDigitC_bounds c hdig
      have hne : c ≠ rbrackC := char_ne_of_toNat c rbrackC
        (by have : rbrackC.toNat = 93 := by decide
            omega)
      simp [hne]
  | str s => exact ⟨quoteC, _, rfl, by decide⟩
  | arr l =>
    cases l with
    | nil => exact ⟨lbrackC, _, rfl, by decide⟩
    | cons e es => exact ⟨lbrackC, _, rfl, by decide⟩
  | obj o =>
    cases o with
    | nil => exact ⟨lbraceC, _, rfl, by decide⟩
    | cons k v fs => exact ⟨lbraceC, _, rfl, by decide⟩

theorem printJ_length_pos (j : Json) : 0 < (printJ j).length := by
  obtain ⟨c, cs, hc, _⟩ := printJ_shape j
  simp [hc]

theorem printT_length_pos (es : JList) : 0 < (printT es).length := by
  cases es <;> simp [printT]

theorem printO_length_pos (fs : JObj) : 0 < (printO fs).length := by
  cases fs <;> simp [printO]

theorem numSafe_printT (es : JList) (r : List Char) : numSafe (printT es ++ r) = true := by
  cases es <;> simp [printT, numSafe] <;> decide

theorem numSafe_printO (fs : JObj) (r : List Char) : numSafe (printO fs ++ r) = true := by
  cases fs <;> simp [printO, numSafe] <;> decide

theorem headIs_cons (c : Char) (t : List Char) (x : Char) : headIs (c :: t) x = (c == x) := rfl

theorem parseM_succ (f : Nat) (m : PMode) (input : List Char) :
    parseM (f + 1) m input = parseStep (parseM f) m input := by
  simp [parseM]

theorem parseStep_top (rec : PMode → List Char → Option (PRes × List Char)) (input : List Char) :
    parseStep rec .top input = topStep rec input := rfl

theorem parseStep_arrTail (rec : PMode → List Char → Option (PRes × List Char))
    (input : List Char) : parseStep rec .arrTail input = arrTailStep rec input := rfl

theorem parseStep_objTail (rec : PMode → List Char → Option (PRes × List Char))
    (input : List Char) : parseStep rec .objTail input = objTailStep rec input := rfl

theorem topStep_null (rec : PMode → List Char → Option (PRes × List Char)) (rest : List Char) :
    topStep rec ('n' :: rest) = (expectLit ['u', 'l', 'l'] rest).map fun r => (.v .null, r) := by
  simp [topStep]

theorem topStep_true (rec : PMode → List Char → Option (PRes × List Char)) (rest : List Char) :
    topStep rec ('t' :: rest)
      = (expectLit ['r', 'u', 'e'] rest).map fun r => (.v (.bool true), r) := by
  simp [topStep]

theorem topStep_false (rec : PMode → List Char → Option (PRes × List Char)) (rest : List Char) :
    topStep rec ('f' :: rest)
      = (expectLit ['a', 'l', 's', 'e'] rest).map fun r => (.v (.bool false), r) := by
  simp [topStep]

theorem topStep_quote (rec : PMode → List Char → Option (PRes × List Char)) (rest : List Char) :
    topStep rec (quoteC :: rest)
      = (parseJString rest).map fun p => (.v (.str (String.mk p.1)), p.2) := by
  simp only [topStep]
  simp
  rw [if_neg (by decide), if_neg (by decide), if_neg (by decide)]

theorem topStep_arr_nil (rec : PMode → List Char → Option (PRes × List Char))
    (rest : List Char) (h : headIs rest rbrackC = true) :
    topStep rec (lbrackC :: rest) = some (.v (.arr .nil), rest.tail) := by
  simp only [topStep]
  simp [h]
  rw [if_neg (by decide), if_neg (by decide), if_neg (by decide), if_neg (by decide)]

theorem topStep_arr_go (rec : PMode → List Char → Option (PRes × List Char))
    (rest r2 r3 : List Char) (e : Json) (es : JList)
    (h : headIs rest rbrackC = false)
    (h1 : rec .top rest = some (.v e, r2))
    (h2 : rec .arrTail r2 = some (.vs es, r3)) :
    topStep rec (lbrackC :: rest) = some (.v (.arr (.cons e es)), r3) := by
  simp only [topStep]
  simp [h, h1, h2]
  rw [if_neg (by decide), if_neg (by decide), if_neg (by decide), if_neg (by decide)]

theorem topStep_obj_nil (rec : PMode → List Char → Option (PRes × List Char))
    (rest : List Char) (h : headIs rest rbraceC = true) :
    topStep rec (lbraceC :: rest) = some (.v (.obj .nil), rest.tail) := by
  simp only [topStep]
  simp [h]
  rw [if_neg (by decide), if_neg (by decide), if_neg (by decide), if_neg (by decide),
    if_neg (by decide)]

theorem topStep_obj_go (rec : PMode → List Char → Option (PRes × List Char))
    (rest r2 r3 r4 : List Char) (k : List Char) (v : Json) (fs : JObj)
    (hq : headIs rest rbraceC = false) (hq2 : headIs rest quoteC = true)
    (hk : parseJString rest.tail = some (k, r2)) (hc : headIs r2 colonC = true)
    (hv : rec .top r2.tail = some (.v v, r3))
    (hf : rec .objTail r3 = some (.fields fs, r4)) :
    topStep rec (lbraceC :: rest) = some (.v (.obj (.cons (String.mk k) v fs)), r4) := by
  simp only [topStep]
  simp [hq, hq2, hk, hc, hv, hf]
  rw [if_neg (by decide), if_neg (by decide), if_neg (by decide), if_neg (by decide),
    if_neg (by decide)]

theorem topStep_minus (rec : PMode → List Char → Option (PRes × List Char))
    (rest r2 : List Char) (m : Nat) (h : parseNatNum rest = some (m, r2)) :
    topStep rec (minusC :: rest) = some (.v (.num (-(m : Int))), r2) := by
  simp only [topStep]
  simp [h]
  rw [if_neg (by decide), if_neg (by decide), if_neg (by decide), if_neg (by decide),
    if_neg (by decide), if_neg (by decide)]

theorem topStep_digit (rec : PMode → List Char → Option (PRes × List Char))
    (c : Char) (rest r2 : List Char) (m : Nat)
    (hdig : isDigitC c = true) (h : parseNatNum (c :: rest) = some (m, r2)) :
    topStep rec (c :: rest) = some (.v (.num (m : Int)), r2) := by
  have hb := isDigitC_bounds c hdig
  have hv1 : ('n').toNat = 110 := by decide
  have hv2 : ('t').toNat = 116 := by decide
  have hv3 : ('f').toNat = 102 := by decide
  have hv4 : quoteC.toNat = 34 := by decide
  have hv5 : lbrackC.toNat = 91 := by decide
  have hv6 : lbraceC.toNat = 123 := by decide
  have hv7 : minusC.toNat = 45 := by decide
  have hn1 : ¬ (c = 'n') := char_ne_of_toNat c 'n' (by omega)
  have hn2 : ¬ (c = 't') := char_ne_of_toNat c 't' (by omega)
  have hn3 : ¬ (c = 'f') := char_ne_of_toNat c 'f' (by omega)
  have hn4 : ¬ (c = quoteC) := char_ne_of_toNat c quoteC (by omega)
  have hn5 : ¬ (c = lbrackC) := char_ne_of_toNat c lbrackC (by omega)
  have hn6 : ¬ (c = lbraceC) := char_ne_of_toNat c lbraceC (by omega)
  have hn7 : ¬ (c = minusC) := char_ne_of_toNat c minusC (by omega)
  simp only [topStep]
  rw [if_neg hn1, if_neg hn2, if_neg hn3, if_neg hn4, if_neg hn5, if_neg hn6, if_neg hn7,
    if_pos hdig]
  simp [h]

theorem arrTailStep_done (rec : PMode → List Char → Option (PRes × List Char))
    (rest : List Char) : arrTailStep rec (rbrackC :: rest) = some (.vs .nil, rest) := by
  simp only [arrTailStep]
  simp

theorem arrTailStep_go (rec : PMode → List Char → Option (PRes × List Char))
    (rest r2 r3 : List Char) (e : Json) (es : JList)
    (h1 : rec .top rest = some (.v e, r2))
    (h2 : rec .arrTail r2 = some (.vs es, r3)) :
    arrTailStep rec (commaC :: rest) = some (.vs (.cons e es), r3) := by
  simp only [arrTailStep]
  simp [h1, h2]
  decide

theorem objTailStep_done (rec : PMode → List Char → Option (PRes × List Char))
    (rest : List Char) : objTailStep rec (rbraceC :: rest) = some (.fields .nil, rest) := by
  simp only [objTailStep]
  simp

theorem objTailStep_go (rec : PMode → List Char → Option (PRes × List Char))
    (rest r2 r3 r4 : List Char) (k : List Char) (v : Json) (fs : JObj)
    (hq : headIs rest quoteC = true)
    (hk : parseJString rest.tail = some (k, r2)) (hc : headIs r2 colonC = true)
    (hv : rec .top r2.tail = some (.v v, r3))
    (hf : rec .objTail r3 = some (.fields fs, r4)) :
    objTailStep rec (commaC :: rest) = some (.fields (.cons (String.mk k) v fs), r4) := by
  simp only [objTailStep]
  simp [hq, hk, hc, hv, hf]
  decide

theorem printJ_null_eq : printJ .null = ['n', 'u', 'l', 'l'] := rfl

theorem printJ_true_eq : printJ (.bool true) = ['t', 'r', 'u', 'e'] := rfl

theorem printJ_false_eq : printJ (.bool false) = ['f', 'a', 'l', 's', 'e'] := rfl

theorem printJ_num_eq (n : Int) : printJ (.num n) = intDigits n := rfl

theorem printJ_str_eq (s : String) : printJ (.str s) = jstrPrint s.data := rfl

theorem printJ_arrnil_eq : printJ (.arr .nil) = [lbrackC, rbrackC] := rfl

theorem printJ_arrcons_eq (e : Json) (es : JList) :
    printJ (.arr (.cons e es)) = lbrackC :: (printJ e ++ printT es) := rfl

theorem printJ_objnil_eq : printJ (.obj .nil) = [lbraceC, rbraceC] := rfl

theorem printJ_objcons_eq (k : String) (v : Json) (fs : JObj) :
    printJ (.obj (.cons k v fs))
      = lbraceC :: (jstrPrint k.data ++ (colonC :: (printJ v ++ printO fs))) := rfl

theorem printT_nil_eq : printT .nil = [rbrackC] := rfl

theorem printT_cons_eq (e : Json) (es : JList) :
    printT (.cons e es) = commaC :: (printJ e ++ printT es) := rfl

theorem printO_nil_eq : printO .nil = [rbraceC] := rfl

theorem printO_cons_eq (k : String) (v : Json) (fs : JObj) :
    printO (.cons k v fs) = commaC :: (jstrPrint k.data ++ (colonC :: (printJ v ++ printO fs))) := rfl

theorem parseM_print (f : Nat) :
    (∀ (j : Json) (rest : List Char), (printJ j).length ≤ f → numSafe rest = true →
      parseM f .top (printJ j ++ rest) = some (.v j, rest))
    ∧ (∀ (es : JList) (rest : List Char), (printT es).length ≤ f → numSafe rest = true →
      parseM f .arrTail (printT es ++ rest) = some (.vs es, rest))
    ∧ (∀ (fs : JObj) (rest : List Char), (printO fs).length ≤ f → numSafe rest = true →
      parseM f .objTail (printO fs ++ rest) = some (.fields fs, rest)) := by
  induction f using Nat.strong_induction_on with
  | _ f IH =>
    match f with
    | 0 =>
      refine ⟨?_, ?_, ?_⟩ <;> intro x rest hlen hsafe
      · exact absurd hlen (by have := printJ_length_pos x; omega)
      · exact absurd hlen (by have := printT_length_pos x; omega)
      · exact absurd hlen (by have := printO_length_pos x; omega)
    | g + 1 =>
      have IHg := IH g (Nat.lt_succ_self g)
      refine ⟨?_, ?_, ?_⟩
      · intro j rest hlen hsafe
        rw [parseM_succ, parseStep_top]
        cases j with
        | null =>
          rw [printJ_null_eq,
            show (['n', 'u', 'l', 'l'] : List Char) ++ rest
              = 'n' :: ('u' :: 'l' :: 'l' :: rest) from rfl,
            topStep_null,
            show ('u' :: 'l' :: 'l' :: rest : List Char) = ['u', 'l', 'l'] ++ rest from rfl,
            expectLit_self]
          rfl
        | bool b =>
          cases b with
          | true =>
            rw [printJ_true_eq,
              show (['t', 'r', 'u', 'e'] : List Char) ++ rest
                = 't' :: ('r' :: 'u' :: 'e' :: rest) from rfl,
              topStep_true,
              show ('r' :: 'u' :: 'e' :: rest : List Char) = ['r', 'u', 'e'] ++ rest from rfl,
              expectLit_self]
            rfl
          | false =>
            rw [printJ_false_eq,
              show (['f', 'a', 'l', 's', 'e'] : List Char) ++ rest
                = 'f' :: ('a' :: 'l' :: 's' :: 'e' :: rest) from rfl,
              topStep_false,
              show ('a' :: 'l' :: 's' :: 'e' :: rest : List Char)
                = ['a', 'l', 's', 'e'] ++ rest from rfl,
              expectLit_self]
            rfl
        | num n =>
          rw [printJ_num_eq]
          by_cases hn : n < 0
          · rw [show intDigits n = minusC :: natDigits (-n).toNat from by simp [intDigits, hn],
              show ((minusC :: natDigits (-n).toNat) ++ rest)
                = minusC :: (natDigits (-n).toNat ++ rest) from rfl,
              topStep_minus (parseM g) _ rest (-n).toNat (parseNatNum_natDigits _ rest hsafe)]
            have hz : (-(((-n).toNat : Int))) = n := by omega
            rw [hz]
          · obtain ⟨c, cs, hcons, hdig⟩ := natDigits_head_digit n.toNat
            rw [show intDigits n = natDigits n.toNat from by simp [intDigits, hn], hcons,
              show ((c :: cs) ++ rest) = c :: (cs ++ rest) from rfl]
            have hpn : parseNatNum (c :: (cs ++ rest)) = some (n.toNat, rest) := by
              rw [show c :: (cs ++ rest) = (c :: cs) ++ rest from rfl, ← hcons]
              exact parseNatNum_natDigits _ rest hsafe
            rw [topStep_digit (parseM g) c (cs ++ rest) rest n.toNat hdig hpn]
            have hz : ((n.toNat : Int)) = n := Int.toNat_of_nonneg (by omega)
            rw [hz]
        | str s =>
          rw [printJ_str_eq,
            show jstrPrint s.data ++ rest
              = quoteC :: (escape s.data ++ (quoteC :: rest)) from by simp [jstrPrint],
            topStep_quote, parseJString_escape]
          rfl
        | arr l =>
          cases l with
          | nil =>
            rw [printJ_arrnil_eq,
              show ([lbrackC, rbrackC] : List Char) ++ rest = lbrackC :: (rbrackC :: rest)
                from rfl,
              topStep_arr_nil _ _ (by simp [headIs_cons])]
            rfl
          | cons e es =>
            rw [printJ_arrcons_eq] at hlen
            simp only [List.length_cons, List.length_append] at hlen
            have hpe := printJ_length_pos e
            have hpt := printT_length_pos es
            have hle : (printJ e).length ≤ g := by omega
            have hlt : (printT es).length ≤ g := by omega
            rw [printJ_arrcons_eq,
              show (lbrackC :: (printJ e ++ printT es)) ++ rest
                = lbrackC :: (printJ e ++ (printT es ++ rest)) from by simp]
            obtain ⟨c, cs, hcons, hbne⟩ := printJ_shape e
            have hhead : headIs (printJ e ++ (printT es ++ rest)) rbrackC = false := by
              rw [hcons, show ((c :: cs) ++ (printT es ++ rest)) = c :: (cs ++ (printT es ++ rest))
                from rfl, headIs_cons]
              exact hbne
            rw [topStep_arr_go (parseM g) _ (printT es ++ rest) rest e es hhead
              (IHg.1 e (printT es ++ rest) hle (numSafe_printT es rest))
              (IHg.2.1 es rest hlt hsafe)]
        | obj o =>
          cases o with
          | nil =>
            rw [printJ_objnil_eq,
              show ([lbraceC, rbraceC] : List Char) ++ rest = lbraceC :: (rbraceC :: rest)
                from rfl,
              topStep_obj_nil _ _ (by simp [headIs_cons])]
            rfl
          | cons k v fs =>
            rw [printJ_objcons_eq] at hlen
            simp only [List.length_cons, List.length_append, jstrPrint] at hlen
            have hpv := printJ_length_pos v
            have hpo := printO_length_pos fs
            have hlv : (printJ v).length ≤ g := by omega
            have hlo : (printO fs).length ≤ g := by omega
            rw [printJ_objcons_eq,
              show (lbraceC :: (jstrPrint k.data ++ (colonC :: (printJ v ++ printO fs)))) ++ rest
                = lbraceC :: (quoteC :: (escape k.data
                    ++ (quoteC :: (colonC :: (printJ v ++ (printO fs ++ rest))))))
                from by simp [jstrPrint]]
            rw [topStep_obj_go (parseM g)
              (quoteC :: (escape k.data ++ (quoteC :: (colonC :: (printJ v ++ (printO fs ++ rest))))))
              (colonC :: (printJ v ++ (printO fs ++ rest)))
              (printO fs ++ rest) rest k.data v fs
              (by rw [headIs_cons]; decide)
              (by rw [headIs_cons]; simp)
              (parseJString_escape k.data (colonC :: (printJ v ++ (printO fs ++ rest))))
              (by rw [headIs_cons]; simp)
              (IHg.1 v (printO fs ++ rest) hlv (numSafe_printO fs rest))
              (IHg.2.2 fs rest hlo hsafe)]
      · intro es rest hlen hsafe
        rw [parseM_succ, parseStep_arrTail]
        cases es with
        | nil =>
          rw [printT_nil_eq, show ([rbrackC] : List Char) ++ rest = rbrackC :: rest from rfl,
            arrTailStep_done]
        | cons e es2 =>
          rw [printT_cons_eq] at hlen
          simp only [List.length_cons, List.length_append] at hlen
          have hpe := printJ_length_pos e
          have hpt := printT_length_pos es2
          have hle : (printJ e).length ≤ g := by omega
          have hlt : (printT es2).length ≤ g := by omega
          rw [printT_cons_eq,
            show (commaC :: (printJ e ++ printT es2)) ++ rest
              = commaC :: (printJ e ++ (printT es2 ++ rest)) from by simp]
          rw [arrTailStep_go (parseM g) _ (printT es2 ++ rest) rest e es2
            (IHg.1 e (printT es2 ++ rest) hle (numSafe_printT es2 rest))
            (IHg.2.1 es2 rest hlt hsafe)]
      · intro fs rest hlen hsafe
        rw [parseM_succ, parseStep_objTail]
        cases fs with
        | nil =>
          rw [printO_nil_eq, show ([rbraceC] : List Char) ++ rest = rbraceC :: rest from rfl,
            objTailStep_done]
        | cons k v fs2 =>
          rw [printO_cons_eq] at hlen
          simp only [List.length_cons, List.length_append, jstrPrint] at hlen
          have hpv := printJ_length_pos v
          have hpo := printO_length_pos fs2
          have hlv : (printJ v).length ≤ g := by omega
          have hlo : (printO fs2).length ≤ g := by omega
          rw [printO_cons_eq,
            show (commaC :: (jstrPrint k.data ++ (colonC :: (printJ v ++ printO fs2)))) ++ rest
              = commaC :: (quoteC :: (escape k.data
                  ++ (quoteC :: (colonC :: (printJ v ++ (printO fs2 ++ rest))))))
              from by simp [jstrPrint]]
          rw [objTailStep_go (parseM g)
            (quoteC :: (escape k.data ++ (quoteC :: (colonC :: (printJ v ++ (printO fs2 ++ rest))))))
            (colonC :: (printJ v ++ (printO fs2 ++ rest)))
            (printO fs2 ++ rest) rest k.data v fs2
            (by rw [headIs_cons]; simp)
            (parseJString_escape k.data (colonC :: (printJ v ++ (printO fs2 ++ rest))))
            (by rw [headIs_cons]; simp)
            (IHg.1 v (printO fs2 ++ rest) hlv (numSafe_printO fs2 rest))
            (IHg.2.2 fs2 rest hlo hsafe)]

/-- `JSON.parse (JSON.stringify j)` is the identity on compact JSON. -/
theorem jsonParse_printJ (j : Json) : jsonParse (printJ j) = some j := by
  unfold jsonParse
  have h := (parseM_print ((printJ j).length + 1)).1 j []
    (by omega) rfl
  rw [List.append_nil] at h
  rw [h]

/-! ## Transport codec: base64 of UTF-8 JSON -/

/-- `Buffer.from(JSON.stringify(x)).toString("base64")`. -/
def encodeTransport (j : Json) : List Char := b64Encode (utf8Encode (printJ j))

/-- `JSON.parse(Buffer.from(s, "base64").toString("utf-8"))`. -/
def decodeTransport (s : List Char) : Option Json :=
  match b64Decode s with
  | none => none
  | some bytes =>
    match utf8Decode bytes with
    | none => none
    | some chars => jsonParse chars

theorem transport_roundtrip (j : Json) : decodeTransport (encodeTransport j) = some j := by
  unfold encodeTransport decodeTransport
  rw [b64_roundtrip _ (utf8Encode_bytes_lt _)]
  simp only [utf8_roundtrip, jsonParse_printJ]

/-! ## Protocol data model (src/types/index.ts) -/

structure OutputSchemaInput where
  type : String
  method : String
  discoverable : Option Bool
deriving DecidableEq

structure OutputSchema where
  input : Option OutputSchemaInput
deriving DecidableEq

/-- The `extra` record; the source only ever stores a `feePayer` entry. -/
structure ExtraConfig where
  feePayer : Option String
deriving DecidableEq

structure PaymentRequirement where
  scheme : String
  network : String
  maxAmountRequired : String
  resource : String
  description : Option String
  mimeType : Option String
  payTo : String
  maxTimeoutSeconds : Int
  asset : String
  outputSchema : Option OutputSchema
  extra : Option ExtraConfig
deriving DecidableEq

structure PaymentPayload where
  scheme : String
  network : String
  transaction : String
  signature : String
  amount : String
  payTo : String
  asset : String
deriving DecidableEq

structure PaymentResponse where
  transactionDigest : String
  amount : String
  timestamp : Int
  effects : Option Json

structure RouteConfig where
  methods : Option (List String)
  price : String
  description : Option String

abbrev RoutesConfig := List (String × RouteConfig)

structure FacilitatorConfig where
  url : String
  timeout : Option Int

structure SuiConfig where
  network : String
  rpcUrl : Option String
  fullnodeUrl : Option String

structure TokenConfig where
  coinType : String
  decimals : Int
  name : String
  symbol : Option String

structure X402Config where
  suiConfig : SuiConfig
  tokenConfig : Option TokenConfig

/-! ## JSON views of the data model (field order as the source constructs
the object literals, so `JSON.stringify` output matches) -/

def jlookup : JObj → String → Option Json
  | .nil, _ => none
  | .cons k v tl, key => if k = key then some v else jlookup tl key

def jStrP : Json → Option String
  | .str s => some s
  | _ => none

def jIntP : Json → Option Int
  | .num n => some n
  | _ => none

def jBoolP : Json → Option Bool
  | .bool b => some b
  | _ => none

def getStr (o : JObj) (k : String) : Option String := (jlookup o k).bind jStrP

def getInt (o : JObj) (k : String) : Option Int := (jlookup o k).bind jIntP

/-- Append an optional member (JS `undefined` members are omitted by
`JSON.stringify`). -/
def optField (k : String) (v : Option Json) (tl : JObj) : JObj :=
  match v with
  | some j => .cons k j tl
  | none => tl

def paymentPayloadToJson (p : PaymentPayload) : Json :=
  .obj (.cons "scheme" (.str p.scheme) (.cons "network" (.str p.network)
    (.cons "transaction" (.str p.transaction) (.cons "signature" (.str p.signature)
    (.cons "amount" (.str p.amount) (.cons "payTo" (.str p.payTo)
    (.cons "asset" (.str p.asset) .nil)))))))

def paymentPayloadFromJson (j : Json) : Option PaymentPayload :=
  match j with
  | .obj o => do
    let sc ← getStr o "scheme"
    let nw ← getStr o "network"
    let tx ← getStr o "transaction"
    let sg ← getStr o "signature"
    let am ← getStr o "amount"
    let pt ← getStr o "payTo"
    let ast ← getStr o "asset"
    pure ⟨sc, nw, tx, sg, am, pt, ast⟩
  | _ => none

def paymentResponseToJson (r : PaymentResponse) : Json :=
  .obj (.cons "transactionDigest" (.str r.transactionDigest)
    (.cons "amount" (.str r.amount)
    (.cons "timestamp" (.num r.timestamp)
    (optField "effects" r.effects .nil))))

def paymentResponseFromJson (j : Json) : Option PaymentResponse :=
  match j with
  | .obj o => do
    let td ← getStr o "transactionDigest"
    let am ← getStr o "amount"
    let ts ← getInt o "timestamp"
    pure ⟨td, am, ts, jlookup o "effects"⟩
  | _ => none

def outputSchemaInputToJson (i : OutputSchemaInput) : Json :=
  .obj (.cons "type" (.str i.type) (.cons "method" (.str i.method)
    (optField "discoverable" (i.discoverable.map Json.bool) .nil)))

def outputSchemaInputFromJson (j : Json) : Option OutputSchemaInput :=
  match j with
  | .obj o => do
    let t ← getStr o "type"
    let m ← getStr o "method"
    pure ⟨t, m, (jlookup o "discoverable").bind jBoolP⟩
  | _ => none

def outputSchemaToJson (s : OutputSchema) : Json :=
  .obj (optField "input" (s.input.map outputSchemaInputToJson) .nil)

def outputSchemaFromJson (j : Json) : Option OutputSchema :=
  match j with
  | .obj o => some ⟨(jlookup o "input").bind outputSchemaInputFromJson⟩
  | _ => none

def extraToJson (e : ExtraConfig) : Json :=
  .obj (optField "feePayer" (e.feePayer.map Json.str) .nil)

def extraFromJson (j : Json) : Option ExtraConfig :=
  match j with
  | .obj o => some ⟨(jlookup o "feePayer").bind jStrP⟩
  | _ => none

def paymentRequirementToJson (r : PaymentRequirement) : Json :=
  .obj (.cons "scheme" (.str r.scheme) (.cons "network" (.str r.network)
    (.cons "maxAmountRequired" (.str r.maxAmountRequired) (.cons "resource" (.str r.resource)
    (optField "description" (r.description.map Json.str)
    (optField "mimeType" (r.mimeType.map Json.str)
    (.cons "payTo" (.str r.payTo) (.cons "maxTimeoutSeconds" (.num r.maxTimeoutSeconds)
    (.cons "asset" (.str r.asset)
    (optField "outputSchema" (r.outputSchema.map outputSchemaToJson)
    (optField "extra" (r.extra.map extraToJson) .nil)))))))))))

def paymentRequirementFromJson (j : Json) : Option PaymentRequirement :=
  match j with
  | .obj o => do
    let sc ← getStr o "scheme"
    let nw ← getStr o "network"
    let ma ← getStr o "maxAmountRequired"
    let res ← getStr o "resource"
    let pt ← getStr o "payTo"
    let mt ← getInt o "maxTimeoutSeconds"
    let ast ← getStr o "asset"
    pure ⟨sc, nw, ma, res, (jlookup o "description").bind jStrP,
      (jlookup o "mimeType").bind jStrP, pt, mt, ast,
      (jlookup o "outputSchema").bind outputSchemaFromJson,
      (jlookup o "extra").bind extraFromJson⟩
  | _ => none

theorem paymentPayloadFromJson_toJson (p : PaymentPayload) :
    paymentPayloadFromJson (paymentPayloadToJson p) = some p := rfl

theorem paymentResponseFromJson_toJson (r : PaymentResponse) :
    paymentResponseFromJson (paymentResponseToJson r) = some r := by
  obtain ⟨td, am, ts, eff⟩ := r
  cases eff <;> rfl

/-! ## Verifier (src/x402/schemes/exact/sui/server.ts, `verifyPayment`)

The Sui ledger dry-run is an oracle keyed by the payload's transaction
string; `thrown` covers connectivity errors and any other exception, all
caught by the function's own try/catch.  The second component counts how
many ledger (dry-run) calls were issued. -/

inductive DryRunOutcome where
  | success : DryRunOutcome
  | failure : DryRunOutcome
  | thrown : DryRunOutcome

def verifyPaymentT (payload : PaymentPayload) (requirement : PaymentRequirement)
    (dryRun : String → DryRunOutcome) : Bool × Nat :=
  if payload.scheme ≠ "exact" then (false, 0)
  else if payload.network ≠ requirement.network then (false, 0)
  else if payload.payTo ≠ requirement.payTo then (false, 0)
  else if payload.asset ≠ requirement.asset then (false, 0)
  else
    match parseBigInt payload.amount with
    | none => (false, 0)
    | some paidAmount =>
      match parseBigInt requirement.maxAmountRequired with
      | none => (false, 0)
      | some requiredAmount =>
        if paidAmount < requiredAmount then (false, 0)
        else
          match dryRun payload.transaction with
          | .success => (true, 1)
          | .failure => (false, 1)
          | .thrown => (false, 1)

def verifyPayment (payload : PaymentPayload) (requirement : PaymentRequirement)
    (dryRun : String → DryRunOutcome) : Bool :=
  (verifyPaymentT payload requirement dryRun).1

def verifyPaymentLedgerCalls (payload : PaymentPayload) (requirement : PaymentRequirement)
    (dryRun : String → DryRunOutcome) : Nat :=
  (verifyPaymentT payload requirement dryRun).2

/-! ## Client payment builder (src/x402/schemes/exact/sui/client.ts)

Transaction construction, coin selection and signing are ledger work,
modelled by `BuildEnv.buildTx` returning the base64 transaction bytes and
signature (or the thrown error).  The `BigInt` conversion of the amount
happens before any building and its throw propagates. -/

structure BuildEnv where
  buildTx : PaymentRequirement → Except String (String × String)

def createAndSignPayment (paymentRequirement : PaymentRequirement) (env : BuildEnv) :
    Except String PaymentPayload :=
  match parseBigInt paymentRequirement.maxAmountRequired with
  | none => .error "Cannot convert maxAmountRequired to a BigInt"
  | some _ =>
    match env.buildTx paymentRequirement with
    | .error e => .error e
    | .ok (txB64, sigB64) =>
      .ok ⟨"exact", paymentRequirement.network, txB64, sigB64,
        paymentRequirement.maxAmountRequired, paymentRequirement.payTo,
        paymentRequirement.asset⟩

def createPaymentHeader (paymentRequirement : PaymentRequirement) (env : BuildEnv) :
    Except String (List Char) :=
  match createAndSignPayment paymentRequirement env with
  | .error e => .error e
  | .ok payment => .ok (encodeTransport (paymentPayloadToJson payment))

/-! ## Express middleware (src/x402/middleware/paymentMiddleware.ts)

The facilitator fetch and the local ledger are oracles; `thrown` on the
facilitator verify call models a network failure of `fetch` (connection
refused, timeout), which the middleware's outer try/catch turns into the
"Invalid payment format" 402 response. -/

inductive FacVerifyOutcome where
  | ok : FacVerifyOutcome
  | reject : FacVerifyOutcome
  | thrown : FacVerifyOutcome

inductive FacSettleOutcome where
  | ok (receipt : Json) : FacSettleOutcome
  | reject : FacSettleOutcome
  | thrown : FacSettleOutcome

structure Effects where
  facVerify : PaymentPayload → PaymentRequirement → FacVerifyOutcome
  dryRun : String → DryRunOutcome
  facSettle : PaymentPayload → FacSettleOutcome

structure Request where
  path : String
  method : String
  protocol : String
  host : String
  originalUrl : String
  xPaymentHeader : Option String

structure ChallengeBody where
  x402Version : Int
  error : String
  accepts : List PaymentRequirement

inductive MwDecision where
  | next : MwDecision
  | challenge (body : ChallengeBody) : MwDecision
  | deny (error : String) : MwDecision
  | proceed (payload : PaymentPayload) (requirement : PaymentRequirement) : MwDecision

def DEFAULT_TOKEN : TokenConfig := ⟨"0x2::sui::SUI", 9, "SUI", some "SUI"⟩

def decodePaymentHeader (s : String) : Option PaymentPayload :=
  (decodeTransport s.data).bind paymentPayloadFromJson

def buildChallengeRequirement (payTo : String) (routeConfig : RouteConfig) (network : String)
    (tokenConfig : TokenConfig) (facilitator : Option FacilitatorConfig) (req : Request) :
    PaymentRequirement :=
  ⟨"exact", network, routeConfig.price,
    req.protocol ++ "://" ++ req.host ++ req.originalUrl,
    some (routeConfig.description.getD ""), some "", payTo, 60, tokenConfig.coinType,
    some ⟨some ⟨"http", req.method, some true⟩⟩,
    if facilitator.isSome then some ⟨some "facilitator"⟩ else none⟩

def buildVerifyRequirement (payTo : String) (routeConfig : RouteConfig) (network : String)
    (tokenConfig : TokenConfig) (req : Request) : PaymentRequirement :=
  ⟨"exact", network, routeConfig.price,
    req.protocol ++ "://" ++ req.host ++ req.originalUrl,
    none, none, payTo, 60, tokenConfig.coinType, none, none⟩

def paymentMiddleware (payTo : String) (routes : RoutesConfig)
    (facilitator : Option FacilitatorConfig) (x402Config : Option X402Config)
    (eff : Effects) (req : Request) : MwDecision :=
  let tokenConfig := (x402Config.bind (fun c => c.tokenConfig)).getD DEFAULT_TOKEN
  let network := (x402Config.map (fun c => c.suiConfig.network)).getD "sui-localnet"
  match List.lookup req.path routes with
  | none => .next
  | some routeConfig =>
    let methods := routeConfig.methods.getD ["GET"]
    if ¬ (methods.contains req.method = true) then .next
    else
      match req.xPaymentHeader with
      | none =>
        .challenge ⟨1, "X-PAYMENT header is required",
          [buildChallengeRequirement payTo routeConfig network tokenConfig facilitator req]⟩
      | some paymentHeader =>
        match decodePaymentHeader paymentHeader with
        | none => .deny "Invalid payment format"
        | some paymentPayload =>
          let paymentRequirement :=
            buildVerifyRequirement payTo routeConfig network tokenConfig req
          match facilitator with
          | some _ =>
            match eff.facVerify paymentPayload paymentRequirement with
            | .thrown => .deny "Invalid payment format"
            | .ok => .proceed paymentPayload paymentRequirement
            | .reject => .deny "Payment verification failed"
          | none =>
            if verifyPayment paymentPayload paymentRequirement eff.dryRun then
              .proceed paymentPayload paymentRequirement
            else .deny "Payment verification failed"

/-- What the `res.on("finish")` callback does after the handler completed:
`settleCalled` records whether the facilitator settle endpoint was
fetched, `receiptHeader` the `x-payment-response` header value set on the
(already flushed) response.  Settlement failures are logged only: the
result carries no error channel back to the client, and the response
status cannot be changed from here. -/
structure FinishResult where
  settleCalled : Bool
  receiptHeader : Option (List Char)

def onFinish (facilitator : Option FacilitatorConfig) (eff : Effects)
    (paymentPayload : PaymentPayload) (routeExecuted : Bool) (routeStatusCode : Nat) :
    FinishResult :=
  if routeExecuted = true ∧ routeStatusCode < 400 then
    match facilitator with
    | some _ =>
      match eff.facSettle paymentPayload with
      | .ok receipt => ⟨true, some (encodeTransport receipt)⟩
      | .reject => ⟨true, none⟩
      | .thrown => ⟨true, none⟩
    | none => ⟨false, none⟩
  else ⟨false, none⟩

/-! ## Fetch wrapper (src/x402-fetch, `wrapFetchWithPayment`) -/

structure Response where
  status : Nat
  headers : List (String × String)
  body : Json

def getHeader (headers : List (String × String)) (name : String) : Option String :=
  (headers.find? (fun kv => kv.1 == name)).map (fun kv => kv.2)

def setHeader (headers : List (String × String)) (name value : String) :
    List (String × String) :=
  (headers.filter (fun kv => !(kv.1 == name))) ++ [(name, value)]

def jlistToList : JList → List Json
  | .nil => []
  | .cons e es => e :: jlistToList es

def listToJList : List Json → JList
  | [] => .nil
  | j :: js => .cons j (listToJList js)

def decodeRequirementSingle (j : Json) : Except String (List PaymentRequirement) :=
  match paymentRequirementFromJson j with
  | some r => .ok [r]
  | none => .error "Invalid payment required header format"

/-- `decodeXPaymentRequired`: base64-decode, JSON-parse, then
`parsed.accepts || [parsed]`.  The unchecked TypeScript cast of the
elements is modelled as a strict decode; a decode failure models the
thrown `Invalid payment required header format` error. -/
def decodeXPaymentRequired (s : List Char) : Except String (List PaymentRequirement) :=
  match decodeTransport s with
  | none => .error "Invalid payment required header format"
  | some j =>
    match j with
    | .obj o =>
      match jlookup o "accepts" with
      | some (.arr l) =>
        match (jlistToList l).mapM paymentRequirementFromJson with
        | some reqs => .ok reqs
        | none => .error "Invalid payment required header format"
      | some .null => decodeRequirementSingle j
      | none => decodeRequirementSingle j
      | some _ => .error "Invalid payment required header format"
    | _ => decodeRequirementSingle j

def decodeXPaymentResponse (s : List Char) : Except String PaymentResponse :=
  match (decodeTransport s).bind paymentResponseFromJson with
  | some r => .ok r
  | none => .error "Invalid payment response header format"

structure WrapOutcome where
  result : Except String Response
  fetchCalls : Nat
  buildCalls : Nat

def selectRequirement
    (selector : Option (List PaymentRequirement → Option PaymentRequirement))
    (requirements : List PaymentRequirement) : Option PaymentRequirement :=
  match selector with
  | some f => f requirements
  | none => requirements.head?

def budgetCheck (maxValue : Option Int) (selected : PaymentRequirement) :
    Except String Unit :=
  match maxValue with
  | none => .ok ()
  | some mv =>
    match parseBigInt selected.maxAmountRequired with
    | none => .error "Cannot convert maxAmountRequired to a BigInt"
    | some requiredAmount =>
      if requiredAmount > mv then
        .error ("Payment amount (" ++ String.mk (intDigits requiredAmount)
          ++ ") exceeds maximum allowed value (" ++ String.mk (intDigits mv) ++ ")")
      else .ok ()

/-- The payment-aware transport: one plain fetch; on a 402, decode the
challenge from the `x-payment-required` header, select a requirement,
enforce the spend cap, build the payment header, and retry exactly once.
`fetchCalls` counts fetches, `buildCalls` counts entries into payment
construction (`createPaymentHeader`). -/
def wrapFetchWithPayment (fetchFn : List (String × String) → Response) (env : BuildEnv)
    (maxValue : Option Int)
    (selector : Option (List PaymentRequirement → Option PaymentRequirement))
    (initHeaders : List (String × String)) : WrapOutcome :=
  let response := fetchFn initHeaders
  if response.status ≠ 402 then ⟨.ok response, 1, 0⟩
  else
    match getHeader response.headers "x-payment-required" with
    | none => ⟨.error "402 status but no x-payment-required header found", 1, 0⟩
    | some hdr =>
      match decodeXPaymentRequired hdr.data with
      | .error e => ⟨.error e, 1, 0⟩
      | .ok requirements =>
        if requirements.length = 0 then ⟨.error "No payment requirements provided", 1, 0⟩
        else
          match selectRequirement selector requirements with
          | none => ⟨.error "No suitable payment requirement found", 1, 0⟩
          | some selectedRequirement =>
            match budgetCheck maxValue selectedRequirement with
            | .error e => ⟨.error e, 1, 0⟩
            | .ok _ =>
              match createPaymentHeader selectedRequirement env with
              | .error e => ⟨.error e, 1, 1⟩
              | .ok paymentHeader =>
                ⟨.ok (fetchFn (setHeader initHeaders "x-payment" (String.mk paymentHeader))),
                  2, 1⟩

/-! ## Composed server (middleware in front of a handler), for end-to-end
scenarios.  The challenge is sent as the 402 JSON body — the middleware
sets no `x-payment-required` response header. -/

def challengeBodyToJson (b : ChallengeBody) : Json :=
  .obj (.cons "x402Version" (.num b.x402Version) (.cons "error" (.str b.error)
    (.cons "accepts" (.arr (listToJList (b.accepts.map paymentRequirementToJson))) .nil)))

/-- How Express materialises a middleware decision: challenges and denials
are `res.status(402).json(...)`; otherwise the downstream handler's own
response goes out. -/
def decisionResponse (handlerStatus : Nat) (handlerBody : Json) : MwDecision → Response
  | .next => ⟨handlerStatus, [], handlerBody⟩
  | .challenge b => ⟨402, [], challengeBodyToJson b⟩
  | .deny e => ⟨402, [], .obj (.cons "x402Version" (.num 1) (.cons "error" (.str e) .nil))⟩
  | .proceed _ _ => ⟨handlerStatus, [], handlerBody⟩

def serverHandle (payTo : String) (routes : RoutesConfig)
    (facilitator : Option FacilitatorConfig) (x402Config : Option X402Config) (eff : Effects)
    (handlerStatus : Nat) (handlerBody : Json) (baseReq : Request)
    (headers : List (String × String)) : Response :=
  decisionResponse handlerStatus handlerBody
    (paymentMiddleware payTo routes facilitator x402Config eff
      ⟨baseReq.path, baseReq.method, baseReq.protocol, baseReq.host,
        baseReq.originalUrl, getHeader headers "x-payment"⟩)

/-! ## Concrete fixtures for witnesses and counterexamples -/

def rEx : PaymentRequirement :=
  ⟨"exact", "sui-localnet", "1000000000", "http://localhost:4021/premium", none, none,
    "0xserver", 60, "0x2::sui::SUI", none, none⟩

def pEx : PaymentPayload :=
  ⟨"exact", "sui-localnet", "dHg=", "c2ln", "1000000000", "0xserver", "0x2::sui::SUI"⟩

def pLow : PaymentPayload :=
  ⟨"exact", "sui-localnet", "dHg=", "c2ln", "500000000", "0xserver", "0x2::sui::SUI"⟩

def pBadAmount : PaymentPayload :=
  ⟨"exact", "sui-localnet", "dHg=", "c2ln", "not-a-number", "0xserver", "0x2::sui::SUI"⟩

def ledEx : String → DryRunOutcome := fun _ => .success

def envEx : BuildEnv := ⟨fun _ => .ok ("dHg=", "c2ln")⟩

def effAllOk : Effects := ⟨fun _ _ => .ok, fun _ => .success, fun _ => .ok Json.null⟩

def effVerifyDown : Effects := ⟨fun _ _ => .thrown, fun _ => .success, fun _ => .ok Json.null⟩

def facEx : FacilitatorConfig := ⟨"http://localhost:3002", some 30000⟩

def c1Routes : RoutesConfig :=
  [("/premium", ⟨some ["GET"], "1000000000", some "Premium content access"⟩)]

def c1Req : Request := ⟨"/premium", "GET", "http", "localhost:4021", "/premium", none⟩

def hdrEx : String := String.mk (encodeTransport (paymentPayloadToJson pEx))

/-! ## Claims -/

/-- Claim C2: for every payload and requirement, `verifyPayment` returns
false whenever the payload's amount (as an arbitrary-precision integer)
is strictly below `maxAmountRequired`, or the scheme is not "exact", or
network/payTo/asset differ from the requirement — and in all these cases
it returns false with zero ledger (dry-run) calls: the field and amount
checks short-circuit before any ledger interaction. -/
theorem C2_verifyPayment_shortCircuit (p : PaymentPayload) (r : PaymentRequirement)
    (dryRun : String → DryRunOutcome)
    (h : (∃ a b, parseBigInt p.amount = some a ∧ parseBigInt r.maxAmountRequired = some b ∧ a < b)
      ∨ p.scheme ≠ "exact" ∨ p.network ≠ r.network ∨ p.payTo ≠ r.payTo ∨ p.asset ≠ r.asset) :
    verifyPayment p r dryRun = false ∧ verifyPaymentLedgerCalls p r dryRun = 0 := by
  unfold verifyPayment verifyPaymentLedgerCalls verifyPaymentT
  split_ifs with h1 h2 h3 h4
  · exact ⟨rfl, rfl⟩
  · exact ⟨rfl, rfl⟩
  · exact ⟨rfl, rfl⟩
  · exact ⟨rfl, rfl⟩
  · rcases h with ⟨a, b, ha, hb, hab⟩ | hf | hf | hf | hf
    · rw [ha, hb]
      simp [hab, Nat.not_lt.mpr]
    · exact absurd hf h1
    · exact absurd hf h2
    · exact absurd hf h3
    · exact absurd hf h4

/-- Witness for C2: a payload paying 500000000 against a requirement of
1000000000 is rejected without touching the ledger. -/
theorem C2_witness :
    verifyPayment pLow rEx ledEx = false ∧ verifyPaymentLedgerCalls pLow rEx ledEx = 0 :=
  C2_verifyPayment_shortCircuit pLow rEx ledEx
    (Or.inl ⟨500000000, 1000000000, rfl, rfl, by decide⟩)

/-- Claim C3: `verifyPayment` is total and fails closed — it always
returns a boolean, and a malformed amount string (either side), a thrown
dry-run (ledger connectivity error or simulation exception), or an
unsuccessful simulation all yield `false` rather than an exception. -/
theorem C3_verifyPayment_failsClosed (p : PaymentPayload) (r : PaymentRequirement)
    (dryRun : String → DryRunOutcome) :
    (verifyPayment p r dryRun = true ∨ verifyPayment p r dryRun = false)
    ∧ (parseBigInt p.amount = none ∨ parseBigInt r.maxAmountRequired = none →
        verifyPayment p r dryRun = false)
    ∧ (dryRun p.transaction = .thrown → verifyPayment p r dryRun = false)
    ∧ (dryRun p.transaction = .failure → verifyPayment p r dryRun = false) := by
  refine ⟨?_, ?_, ?_, ?_⟩
  · cases hb : verifyPayment p r dryRun
    · exact Or.inr rfl
    · exact Or.inl rfl
  · intro h
    unfold verifyPayment verifyPaymentT
    split_ifs
    any_goals rfl
    rcases h with h | h
    · simp [h]
    · cases hpa : parseBigInt p.amount with
      | none => simp [hpa]
      | some a => simp [hpa, h]
  · intro h
    unfold verifyPayment verifyPaymentT
    split_ifs
    any_goals rfl
    cases hpa : parseBigInt p.amount with
    | none => simp [hpa]
    | some a =>
      cases hpb : parseBigInt r.maxAmountRequired with
      | none => simp [hpa, hpb]
      | some b =>
        by_cases hab : a < b
        · simp [hpa, hpb, hab]
        · simp [hpa, hpb, hab, h]
  · intro h
    unfold verifyPayment verifyPaymentT
    split_ifs
    any_goals rfl
    cases hpa : parseBigInt p.amount with
    | none => simp [hpa]
    | some a =>
      cases hpb : parseBigInt r.maxAmountRequired with
      | none => simp [hpa, hpb]
      | some b =>
        by_cases hab : a < b
        · simp [hpa, hpb, hab]
        · simp [hpa, hpb, hab, h]

/-- Witness for C3: an amount string that is not a valid integer makes
verification return false. -/
theorem C3_witness : verifyPayment pBadAmount rEx ledEx = false :=
  (C3_verifyPayment_failsClosed pBadAmount rEx ledEx).2.1 (Or.inl rfl)

/-- Claim C10: a payload built by `createAndSignPayment` copies the
requirement's fields verbatim (scheme "exact", network, payTo, asset, and
amount = `maxAmountRequired`), so all five field/amount checks of
`verifyPayment` against that same requirement pass: exactly one dry-run
call is made and its outcome alone decides verification. -/
theorem C10_createAndSign_matches_verify (r : PaymentRequirement) (env : BuildEnv)
    (p : PaymentPayload) (dryRun : String → DryRunOutcome)
    (h : createAndSignPayment r env = .ok p) :
    p.scheme = "exact" ∧ p.network = r.network ∧ p.payTo = r.payTo ∧ p.asset = r.asset
    ∧ p.amount = r.maxAmountRequired
    ∧ verifyPaymentLedgerCalls p r dryRun = 1
    ∧ (verifyPayment p r dryRun = true ↔ dryRun p.transaction = .success) := by
  unfold createAndSignPayment at h
  cases hparse : parseBigInt r.maxAmountRequired with
  | none => rw [hparse] at h; exact absurd h (by simp)
  | some a =>
    rw [hparse] at h
    cases hbuild : env.buildTx r with
    | error e => rw [hbuild] at h; exact absurd h (by simp)
    | ok txsig =>
      rw [hbuild] at h
      obtain ⟨tx, sig⟩ := txsig
      simp only [Except.ok.injEq] at h
      subst h
      refine ⟨rfl, rfl, rfl, rfl, rfl, ?_, ?_⟩
      · unfold verifyPaymentLedgerCalls verifyPaymentT
        simp only [ne_eq]
        rw [if_neg (by simp), if_neg (by simp), if_neg (by simp), if_neg (by simp), hparse]
        simp only [Nat.lt_irrefl, Int.lt_irrefl, if_neg (lt_irrefl a)]
        cases dryRun tx <;> rfl
      · unfold verifyPayment verifyPaymentT
        simp only [ne_eq]
        rw [if_neg (by simp), if_neg (by simp), if_neg (by simp), if_neg (by simp), hparse]
        simp only [if_neg (lt_irrefl a)]
        cases hd : dryRun tx <;> simp

/-- Witness for C10: the concrete build environment yields a payload
whose verification succeeds exactly because the dry-run succeeds. -/
theorem C10_witness :
    pEx.scheme = "exact" ∧ pEx.network = rEx.network ∧ pEx.payTo = rEx.payTo
    ∧ pEx.asset = rEx.asset ∧ pEx.amount = rEx.maxAmountRequired
    ∧ verifyPaymentLedgerCalls pEx rEx ledEx = 1
    ∧ (verifyPayment pEx rEx ledEx = true ↔ ledEx pEx.transaction = .success) :=
  C10_createAndSign_matches_verify rEx envEx pEx ledEx rfl

/-- Claim C4: on a protected route (path present, method covered), a
request with no payment header receives status 402 with the JSON
challenge body `x402Version 1 / error / accepts`, where some accepted
requirement carries the route's configured price verbatim and the
configured token's coin type as asset. -/
theorem C4_challenge_shape (payTo : String) (routes : RoutesConfig)
    (fac : Option FacilitatorConfig) (cfg : Option X402Config) (eff : Effects)
    (hs : Nat) (hb : Json) (baseReq : Request) (headers : List (String × String))
    (rc : RouteConfig)
    (hroute : List.lookup baseReq.path routes = some rc)
    (hmethod : (rc.methods.getD ["GET"]).contains baseReq.method = true)
    (hnohdr : getHeader headers "x-payment" = none) :
    ∃ b : ChallengeBody,
      serverHandle payTo routes fac cfg eff hs hb baseReq headers
        = ⟨402, [], challengeBodyToJson b⟩
      ∧ b.x402Version = 1
      ∧ b.error = "X-PAYMENT header is required"
      ∧ ∃ r0, r0 ∈ b.accepts ∧ r0.maxAmountRequired = rc.price
          ∧ r0.asset = ((cfg.bind (fun c => c.tokenConfig)).getD DEFAULT_TOKEN).coinType := by
  refine ⟨⟨1, "X-PAYMENT header is required",
    [buildChallengeRequirement payTo rc ((cfg.map (fun c => c.suiConfig.network)).getD "sui-localnet")
      ((cfg.bind (fun c => c.tokenConfig)).getD DEFAULT_TOKEN) fac
      ⟨baseReq.path, baseReq.method, baseReq.protocol, baseReq.host, baseReq.originalUrl,
        none⟩]⟩, ?_, rfl, rfl, ?_⟩
  · unfold serverHandle paymentMiddleware
    rw [hnohdr]
    dsimp only
    rw [hroute]
    dsimp only
    rw [if_neg (not_not_intro hmethod)]
    rfl
  · exact ⟨buildChallengeRequirement payTo rc
      ((cfg.map (fun c => c.suiConfig.network)).getD "sui-localnet")
      ((cfg.bind (fun c => c.tokenConfig)).getD DEFAULT_TOKEN) fac
      ⟨baseReq.path, baseReq.method, baseReq.protocol, baseReq.host, baseReq.originalUrl,
        none⟩, by simp, rfl, rfl⟩

/-- Witness for C4: the concrete route priced "1000000000" challenged
with the default SUI token. -/
theorem C4_witness :
    ∃ b : ChallengeBody,
      serverHandle "0xserver" c1Routes (some facEx) none effAllOk 200 (.str "premium") c1Req []
        = ⟨402, [], challengeBodyToJson b⟩
      ∧ b.x402Version = 1
      ∧ b.error = "X-PAYMENT header is required"
      ∧ ∃ r0, r0 ∈ b.accepts ∧ r0.maxAmountRequired = "1000000000"
          ∧ r0.asset = "0x2::sui::SUI" :=
  C4_challenge_shape "0xserver" c1Routes (some facEx) none effAllOk 200 (.str "premium")
    c1Req [] ⟨some ["GET"], "1000000000", some "Premium content access"⟩ rfl rfl rfl

/-- Counterexample for Claim C5 as stated ("the Interceptor calls the
Settler — locally or via the Facilitator's settle endpoint — iff the
handler's status is < 400"): with no facilitator configured, a completed
200 handler triggers no settlement call at all — the middleware has no
local settlement path. -/
theorem C5_counterexample :
    (onFinish none effAllOk pEx true 200).settleCalled = false ∧ 200 < 400 :=
  ⟨rfl, by decide⟩

/-- Claim C5 (amended): the settle endpoint is fetched iff a facilitator
is configured, the handler produced a response through `res.send`/`res.json`,
and its status is < 400; for status ≥ 400 nothing happens at all; and a
settlement failure (thrown or rejected) only loses the receipt header —
the finish step has no channel to the already-flushed client response. -/
theorem C5_settlement_behavior (facilitator : Option FacilitatorConfig) (eff : Effects)
    (p : PaymentPayload) (routeExecuted : Bool) (status : Nat) :
    ((onFinish facilitator eff p routeExecuted status).settleCalled = true
      ↔ (facilitator.isSome = true ∧ routeExecuted = true ∧ status < 400))
    ∧ (400 ≤ status → onFinish facilitator eff p routeExecuted status = ⟨false, none⟩)
    ∧ (eff.facSettle p = .thrown →
        (onFinish facilitator eff p routeExecuted status).receiptHeader = none)
    ∧ (eff.facSettle p = .reject →
        (onFinish facilitator eff p routeExecuted status).receiptHeader = none) := by
  unfold onFinish
  by_cases hc : routeExecuted = true ∧ status < 400
  · rw [if_pos hc]
    cases facilitator with
    | none =>
      refine ⟨by simp, ?_, fun _ => rfl, fun _ => rfl⟩
      intro h400
      exact absurd h400 (by omega)
    | some f =>
      cases hsettle : eff.facSettle p with
      | ok receipt =>
        refine ⟨by simp [hc.1, hc.2], ?_, ?_, ?_⟩
        · intro h400
          exact absurd h400 (by have := hc.2; omega)
        · intro ht
          simp [hsettle] at ht
        · intro ht
          simp [hsettle] at ht
      | reject =>
        refine ⟨by simp [hc.1, hc.2], ?_, fun _ => rfl, fun _ => rfl⟩
        intro h400
        exact absurd h400 (by have := hc.2; omega)
      | thrown =>
        refine ⟨by simp [hc.1, hc.2], ?_, fun _ => rfl, fun _ => rfl⟩
        intro h400
        exact absurd h400 (by have := hc.2; omega)
  · rw [if_neg hc]
    refine ⟨?_, fun _ => rfl, fun _ => rfl, fun _ => rfl⟩
    constructor
    · intro h
      cases h
    · rintro ⟨_, h2, h3⟩
      exact absurd ⟨h2, h3⟩ hc

/-- Witness for C5 (amended): a 404 handler status yields no settlement
activity whatsoever. -/
theorem C5_witness : onFinish (some facEx) effAllOk pEx true 404 = ⟨false, none⟩ :=
  (C5_settlement_behavior (some facEx) effAllOk pEx true 404).2.1 (by omega)

set_option maxRecDepth 40000 in
/-- Counterexample for Claim C6 as stated: when the facilitator's
`/verify` fetch throws (unreachable), the middleware answers 402, but
with the error message "Invalid payment format" (the exception lands in
the outer decode catch) — not the claimed generic
"Payment verification failed" message. -/
theorem C6_counterexample :
    paymentMiddleware "0xserver" c1Routes (some facEx) none effVerifyDown
        ⟨"/premium", "GET", "http", "localhost:4021", "/premium", some hdrEx⟩
      = .deny "Invalid payment format"
    ∧ "Invalid payment format" ≠ "Payment verification failed" :=
  ⟨rfl, by decide⟩

/-- Claim C6 (amended): an unreachable facilitator `/verify` (the fetch
throws) never escapes as an exception: the middleware deterministically
answers 402 — though through the outer catch, i.e. with the
"Invalid payment format" message rather than the verification-failed
one. -/
theorem C6_unreachable_facilitator (payTo : String) (routes : RoutesConfig)
    (fac : FacilitatorConfig) (cfg : Option X402Config) (eff : Effects) (req : Request)
    (rc : RouteConfig) (hdrStr : String) (payload : PaymentPayload)
    (hroute : List.lookup req.path routes = some rc)
    (hmethod : (rc.methods.getD ["GET"]).contains req.method = true)
    (hhdr : req.xPaymentHeader = some hdrStr)
    (hdec : decodePaymentHeader hdrStr = some payload)
    (hthrow : eff.facVerify payload
      (buildVerifyRequirement payTo rc
        ((cfg.map (fun c => c.suiConfig.network)).getD "sui-localnet")
        ((cfg.bind (fun c => c.tokenConfig)).getD DEFAULT_TOKEN) req) = .thrown) :
    paymentMiddleware payTo routes (some fac) cfg eff req = .deny "Invalid payment format"
    ∧ ∀ hs hb, (decisionResponse hs hb
        (paymentMiddleware payTo routes (some fac) cfg eff req)).status = 402 := by
  have hmw : paymentMiddleware payTo routes (some fac) cfg eff req
      = .deny "Invalid payment format" := by
    unfold paymentMiddleware
    dsimp only
    rw [hroute]
    dsimp only
    rw [if_neg (not_not_intro hmethod), hhdr]
    dsimp only
    rw [hdec]
    dsimp only
    rw [hthrow]
  exact ⟨hmw, fun hs hb => by rw [hmw]; rfl⟩

set_option maxRecDepth 40000 in
/-- Witness for C6 (amended), at the concrete fixture. -/
theorem C6_witness :
    paymentMiddleware "0xserver" c1Routes (some facEx) none effVerifyDown
        ⟨"/premium", "GET", "http", "localhost:4021", "/premium", some hdrEx⟩
      = .deny "Invalid payment format" :=
  (C6_unreachable_facilitator "0xserver" c1Routes facEx none effVerifyDown
    ⟨"/premium", "GET", "http", "localhost:4021", "/premium", some hdrEx⟩
    ⟨some ["GET"], "1000000000", some "Premium content access"⟩ hdrEx pEx
    rfl rfl rfl rfl rfl).1

def challengeHdrEx : String :=
  String.mk (encodeTransport (challengeBodyToJson ⟨1, "X-PAYMENT header is required", [rEx]⟩))

def fetch402Bare : List (String × String) → Response := fun _ => ⟨402, [], Json.null⟩

def fetch402Challenge : List (String × String) → Response := fun hs =>
  match getHeader hs "x-payment" with
  | some _ => ⟨200, [], .str "premium"⟩
  | none => ⟨402, [("x-payment-required", challengeHdrEx)], Json.null⟩

def phEx : List Char := encodeTransport (paymentPayloadToJson pEx)

def rEx100 : PaymentRequirement :=
  ⟨"exact", "sui-localnet", "100", "http://localhost:4021/premium", none, none,
    "0xserver", 60, "0x2::sui::SUI", none, none⟩

def challengeHdr100 : String :=
  String.mk (encodeTransport (challengeBodyToJson ⟨1, "X-PAYMENT header is required", [rEx100]⟩))

def fetch402Challenge100 : List (String × String) → Response := fun hs =>
  match getHeader hs "x-payment" with
  | some _ => ⟨200, [], .str "premium"⟩
  | none => ⟨402, [("x-payment-required", challengeHdr100)], Json.null⟩

/-- Counterexample for Claim C7 as stated ("if it is 402, the transport
issues exactly one retried request ... and returns that second
response"): a 402 response carrying no `x-payment-required` header makes
the transport throw after a single fetch — no retry is issued. -/
theorem C7_counterexample :
    wrapFetchWithPayment fetch402Bare envEx none none []
      = ⟨.error "402 status but no x-payment-required header found", 1, 0⟩ := rfl

/-- Claim C7 (amended): a non-402 response is returned unchanged with no
payment activity; a 402 whose challenge header is present, decodes to a
nonempty requirement list, and whose selection, budget check and payment
construction succeed, triggers exactly one retry carrying the `x-payment`
header and that second response is returned regardless of its status; a
402 without the challenge header raises an error after one fetch. -/
theorem C7_wrapFetch_spec (fetchFn : List (String × String) → Response) (env : BuildEnv)
    (maxValue : Option Int)
    (selector : Option (List PaymentRequirement → Option PaymentRequirement))
    (initHeaders : List (String × String)) :
    ((fetchFn initHeaders).status ≠ 402 →
      wrapFetchWithPayment fetchFn env maxValue selector initHeaders
        = ⟨.ok (fetchFn initHeaders), 1, 0⟩)
    ∧ (∀ (hdr : String) (requirements : List PaymentRequirement)
        (selected : PaymentRequirement) (ph : List Char),
        (fetchFn initHeaders).status = 402 →
        getHeader (fetchFn initHeaders).headers "x-payment-required" = some hdr →
        decodeXPaymentRequired hdr.data = .ok requirements →
        requirements ≠ [] →
        selectRequirement selector requirements = some selected →
        budgetCheck maxValue selected = .ok () →
        createPaymentHeader selected env = .ok ph →
        wrapFetchWithPayment fetchFn env maxValue selector initHeaders
          = ⟨.ok (fetchFn (setHeader initHeaders "x-payment" (String.mk ph))), 2, 1⟩)
    ∧ ((fetchFn initHeaders).status = 402 →
        getHeader (fetchFn initHeaders).headers "x-payment-required" = none →
        wrapFetchWithPayment fetchFn env maxValue selector initHeaders
          = ⟨.error "402 status but no x-payment-required header found", 1, 0⟩) := by
  refine ⟨?_, ?_, ?_⟩
  · intro hne
    unfold wrapFetchWithPayment
    dsimp only
    rw [if_pos hne]
  · intro hdr requirements selected ph h402 hhdr hdec hne hsel hbudget hbuild
    unfold wrapFetchWithPayment
    dsimp only
    rw [if_neg (not_not_intro h402), hhdr]
    dsimp only
    rw [hdec]
    dsimp only
    rw [if_neg (by simp [hne]), hsel]
    dsimp only
    rw [hbudget]
    dsimp only
    rw [hbuild]
  · intro h402 hhdr
    unfold wrapFetchWithPayment
    dsimp only
    rw [if_neg (not_not_intro h402), hhdr]

set_option maxRecDepth 100000 in
/-- Witness for C7 (amended): against a server whose 402 carries the
encoded challenge header, the wrapper performs exactly one paid retry and
returns its 200 response. -/
theorem C7_witness :
    wrapFetchWithPayment fetch402Challenge envEx none none []
      = ⟨.ok (fetch402Challenge (setHeader [] "x-payment" (String.mk phEx))), 2, 1⟩ :=
  (C7_wrapFetch_spec fetch402Challenge envEx none none []).2.1 challengeHdrEx [rEx] rEx phEx
    rfl rfl rfl (by simp) rfl rfl rfl

/-- Claim C8: with a caller-supplied spend cap, a selected requirement
whose amount exceeds the cap raises the explicit over-budget error with
no payment construction at all (`buildCalls = 0`); when the amount equals
the cap, payment construction proceeds (`buildCalls = 1`). -/
theorem C8_overbudget_guard (fetchFn : List (String × String) → Response) (env : BuildEnv)
    (selector : Option (List PaymentRequirement → Option PaymentRequirement))
    (initHeaders : List (String × String)) (mv : Int) (hdr : String)
    (requirements : List PaymentRequirement) (selected : PaymentRequirement) (amt : Int)
    (h402 : (fetchFn initHeaders).status = 402)
    (hhdr : getHeader (fetchFn initHeaders).headers "x-payment-required" = some hdr)
    (hdec : decodeXPaymentRequired hdr.data = .ok requirements)
    (hne : requirements ≠ [])
    (hsel : selectRequirement selector requirements = some selected)
    (hamt : parseBigInt selected.maxAmountRequired = some amt) :
    (amt > mv →
      wrapFetchWithPayment fetchFn env (some mv) selector initHeaders
        = ⟨.error ("Payment amount (" ++ String.mk (intDigits amt)
            ++ ") exceeds maximum allowed value (" ++ String.mk (intDigits mv) ++ ")"), 1, 0⟩)
    ∧ (amt = mv →
        (wrapFetchWithPayment fetchFn env (some mv) selector initHeaders).buildCalls = 1) := by
  constructor
  · intro hover
    unfold wrapFetchWithPayment
    dsimp only
    rw [if_neg (not_not_intro h402), hhdr]
    dsimp only
    rw [hdec]
    dsimp only
    rw [if_neg (by simp [hne]), hsel]
    dsimp only
    unfold budgetCheck
    dsimp only
    rw [hamt]
    dsimp only
    rw [if_pos hover]
  · intro heq
    unfold wrapFetchWithPayment
    dsimp only
    rw [if_neg (not_not_intro h402), hhdr]
    dsimp only
    rw [hdec]
    dsimp only
    rw [if_neg (by simp [hne]), hsel]
    dsimp only
    unfold budgetCheck
    dsimp only
    rw [hamt]
    dsimp only
    rw [if_neg (by omega)]
    dsimp only
    cases hbuild : createPaymentHeader selected env with
    | error e => rfl
    | ok ph => rfl

set_option maxRecDepth 100000 in
/-- Witness for C8: a requirement of 1000000000 against a cap of 100
aborts with the over-budget error before any payment construction, while
a requirement of exactly 100 proceeds to construction. -/
theorem C8_witness :
    wrapFetchWithPayment fetch402Challenge envEx (some 100) none []
      = ⟨.error ("Payment amount (" ++ String.mk (intDigits 1000000000)
          ++ ") exceeds maximum allowed value (" ++ String.mk (intDigits 100) ++ ")"), 1, 0⟩
    ∧ (wrapFetchWithPayment fetch402Challenge100 envEx (some 100) none []).buildCalls = 1 :=
  ⟨(C8_overbudget_guard fetch402Challenge envEx none [] 100 challengeHdrEx [rEx] rEx
      1000000000 rfl rfl rfl (by simp) rfl rfl).1 (by decide),
    (C8_overbudget_guard fetch402Challenge100 envEx none [] 100 challengeHdr100 [rEx100] rEx100
      100 rfl rfl rfl (by simp) rfl rfl).2 rfl⟩

/-- Claim C9: the transport codec round-trips — encoding a
`PaymentPayload` as `createPaymentHeader` does (base64 of its UTF-8 JSON)
and decoding as the middleware does recovers the payload; likewise
encoding a `PaymentResponse` as done for the receipt header and applying
`decodeXPaymentResponse` is the identity. -/
theorem C9_codec_roundtrip :
    (∀ p : PaymentPayload,
      decodePaymentHeader (String.mk (encodeTransport (paymentPayloadToJson p))) = some p)
    ∧ (∀ r : PaymentResponse,
      decodeXPaymentResponse (encodeTransport (paymentResponseToJson r)) = .ok r) := by
  constructor
  · intro p
    unfold decodePaymentHeader
    rw [show (String.mk (encodeTransport (paymentPayloadToJson p))).data
        = encodeTransport (paymentPayloadToJson p) from rfl,
      transport_roundtrip]
    simp [paymentPayloadFromJson_toJson]
  · intro r
    unfold decodeXPaymentResponse
    rw [transport_roundtrip]
    simp [paymentResponseFromJson_toJson]

set_option maxRecDepth 100000 in
/-- Claim C1: evaluating the composed middleware and payment-aware
transport on the end-to-end scenario (route priced "1000000000" of the
native asset, no prior payment header, all oracles succeeding): the first
call yields the 402 challenge — but only in the JSON body, where the
middleware sets no `x-payment-required` response header — so the
transport throws `402 status but no x-payment-required header found`
after a single fetch: no payment is built, no retry happens, and the
handler's 200 is never reached. -/
theorem C1_challenge_transport_mismatch :
    (serverHandle "0xserver" c1Routes (some facEx) none effAllOk 200 (.str "premium")
        c1Req []).status = 402
    ∧ getHeader (serverHandle "0xserver" c1Routes (some facEx) none effAllOk 200
        (.str "premium") c1Req []).headers "x-payment-required" = none
    ∧ wrapFetchWithPayment
        (serverHandle "0xserver" c1Routes (some facEx) none effAllOk 200 (.str "premium") c1Req)
        envEx none none []
      = ⟨.error "402 status but no x-payment-required header found", 1, 0⟩ :=
  ⟨rfl, rfl, rfl⟩
